import Mathlib

/-!
Shallow embedding of the Shrimpl language core (parser, evaluator, test
runner) from the repository sources, together with theorems settling the
frozen behavioural claims about it.

Modelling conventions:
* Rust `f64` is modelled as `ℚ` (exact rational arithmetic).  None of the
  claims proved here depends on floating-point rounding, on the special
  values `inf`/`nan`, or on the shortest-roundtrip decimal rendering of
  non-integral numbers; where the Rust code renders a non-integral float we
  use a deterministic placeholder rendering and say so in a comment.
* Rust `HashMap` environments are modelled as association lists in which
  `insert` prepends and `get` takes the first (most recent) binding; this
  has exactly the observable insert/overwrite/lookup behaviour of the
  `HashMap` operations the sources use.
* Fallible Rust code returning `Result<_, String>` is modelled with
  `Except String _`.  The evaluator additionally threads a fuel counter,
  consumed exactly once per user-defined function or method call (the only
  source of unbounded recursion in `eval_expr`); the distinguished
  `EvalRes.fuelOut` outcome is a modelling artefact and is never identified
  with an error of the program.
-/

set_option allowUnsafeReducibility true in
attribute [semireducible] Rat.add Rat.sub Rat.mul Rat.inv Rat.ofScientific

namespace Shrimpl

/-- Runtime values of the evaluator (`ValueRuntime` in
`src/interpreter/eval.rs`): a closed union of number, string and boolean. -/
inductive ValueRuntime where
  | Number (n : ℚ)
  | Str (s : String)
  | Bool (b : Bool)
deriving DecidableEq, Repr

/-- Display form of a boolean, as produced by Rust's `Display for bool`. -/
def boolDisplay (b : Bool) : String :=
  if b then "true" else "false"

/-- Rendering of a non-integral number.  The Rust code prints the `f64`
with its `Display` instance (shortest decimal); the exact digit string of
that rendering is a floating-point concern outside this model, so we use
the rational's own deterministic rendering here.  No claim proved in this
file depends on the text produced by this function. -/
def fracDisplay (n : ℚ) : String :=
  toString n

/-- The `Display` implementation for `ValueRuntime`
(`src/interpreter/eval.rs`): an integral number prints as an integer (no
trailing `.0`), a string prints as itself, a boolean prints `true`/`false`.
(The Rust code prints the integral number through an `as i64` cast, which
saturates for magnitudes beyond `i64` — an `f64`-extreme corner outside
this rational model, like the rounding of `f64` arithmetic itself.) -/
def ValueRuntime.display : ValueRuntime → String
  | .Number n => if n.den = 1 then toString n.num else fracDisplay n
  | .Str s => s
  | .Bool b => boolDisplay b

/-- Numeric value of a digit run (most significant first). -/
def digitsVal (ds : List Char) : Nat :=
  ds.foldl (fun a c => a * 10 + (c.toNat - 48)) 0

/-- Model of Rust's `str::parse::<f64>()` as used by the tokenizer and by
`as_number`: an optional sign, then digits with at most one decimal point
(at least one digit overall), then an optional exponent.  The Rust parser
additionally accepts `inf`/`infinity`/`nan` (not representable in `ℚ` and
never exercised by the claims) and rounds to the nearest `f64`; this model
keeps the exact rational value. -/
def parseF64 (s : String) : Option ℚ :=
  let cs := s.data
  let sgn : ℚ := match cs with
    | '-' :: _ => -1
    | _ => 1
  let cs := match cs with
    | '+' :: r => r
    | '-' :: r => r
    | r => r
  let ip := cs.takeWhile Char.isDigit
  let cs1 := cs.dropWhile Char.isDigit
  let fp := match cs1 with
    | '.' :: r => r.takeWhile Char.isDigit
    | _ => []
  let cs2 := match cs1 with
    | '.' :: r => r.dropWhile Char.isDigit
    | _ => cs1
  if ip.isEmpty ∧ fp.isEmpty then none
  else
    let mant : ℚ := sgn * ((digitsVal (ip ++ fp) : ℚ) / ((10 : ℚ) ^ fp.length))
    match cs2 with
    | [] => some mant
    | e :: r =>
      if e = 'e' ∨ e = 'E' then
        let esgn : Int := match r with
          | '-' :: _ => -1
          | _ => 1
        let r2 := match r with
          | '+' :: t => t
          | '-' :: t => t
          | t => t
        let ed := r2.takeWhile Char.isDigit
        let rest := r2.dropWhile Char.isDigit
        if ed.isEmpty ∨ ¬ rest.isEmpty then none
        else some (mant * (10 : ℚ) ^ (esgn * (digitsVal ed : Int)))
      else none

/-- Coerce a value to a number when an operator requires one
(`as_number` in `src/interpreter/eval.rs`): numbers pass through, strings
are float-parsed, booleans are an error. -/
def as_number : ValueRuntime → Except String ℚ
  | .Number n => .ok n
  | .Str s =>
    match parseF64 s with
    | some q => .ok q
    | none => .error s!"Value '{s}' is not a number"
  | .Bool b =>
    let t := boolDisplay b
    .error s!"Value '{t}' is not a number"

/-- Truthiness coercion (`as_bool` in `src/interpreter/eval.rs`): a boolean
is used directly, a number is true iff nonzero, a string is true iff
non-empty.  Total: every arm returns `Ok`. -/
def as_bool : ValueRuntime → Except String Bool
  | .Bool b => .ok b
  | .Number n => .ok (decide (n ≠ 0))
  | .Str s => .ok (!s.isEmpty)

/-- Binary operators of the expression language (`BinOp` in `src/ast.rs`). -/
inductive BinOp where
  | Add | Sub | Mul | Div
  | Eq | Ne | Lt | Le | Gt | Ge
  | And | Or
deriving DecidableEq, Repr

/-- Application of a binary operator to two already-evaluated operands
(`eval_binary` in `src/interpreter/eval.rs`).  `Add` is numeric addition on
two numbers and display-string concatenation otherwise; `Sub`/`Mul`/`Div`
coerce both sides to numbers (division by zero is an error); `Eq`/`Ne`
compare numbers and booleans natively and everything else by display
string; the order comparisons coerce to numbers; `And`/`Or` coerce both
sides with truthiness. -/
def eval_binary (left : ValueRuntime) (op : BinOp) (right : ValueRuntime) :
    Except String ValueRuntime :=
  match op with
  | .Add =>
    match left, right with
    | .Number a, .Number b => .ok (.Number (a + b))
    | _, _ => .ok (.Str (left.display ++ right.display))
  | .Sub => do
    let a ← as_number left
    let b ← as_number right
    .ok (.Number (a - b))
  | .Mul => do
    let a ← as_number left
    let b ← as_number right
    .ok (.Number (a * b))
  | .Div => do
    let a ← as_number left
    let b ← as_number right
    if b = 0 then .error "Division by zero" else .ok (.Number (a / b))
  | .Eq =>
    let result :=
      match left, right with
      | .Number a, .Number b => decide (a = b)
      | .Bool a, .Bool b => a == b
      | _, _ => left.display == right.display
    .ok (.Bool result)
  | .Ne =>
    let result :=
      match left, right with
      | .Number a, .Number b => decide (a ≠ b)
      | .Bool a, .Bool b => a != b
      | _, _ => left.display != right.display
    .ok (.Bool result)
  | .Lt => do
    let a ← as_number left
    let b ← as_number right
    .ok (.Bool (decide (a < b)))
  | .Le => do
    let a ← as_number left
    let b ← as_number right
    .ok (.Bool (decide (a ≤ b)))
  | .Gt => do
    let a ← as_number left
    let b ← as_number right
    .ok (.Bool (decide (a > b)))
  | .Ge => do
    let a ← as_number left
    let b ← as_number right
    .ok (.Bool (decide (a ≥ b)))
  | .And => do
    let a ← as_bool left
    let b ← as_bool right
    .ok (.Bool (a && b))
  | .Or => do
    let a ← as_bool left
    let b ← as_bool right
    .ok (.Bool (a || b))

/-- Variable environment (`Env` in `src/interpreter/eval.rs`): a name-keyed
map of runtime values, modelled as an association list whose head is the
most recent insertion. -/
structure Env where
  vars : List (String × ValueRuntime)
deriving DecidableEq, Repr

/-- `Env::new`: the empty environment. -/
def Env.new : Env := ⟨[]⟩

/-- `Env::with_parent`: a full copy of the parent's entire variable map
(Rust `parent.vars.clone()`). -/
def Env.with_parent (parent : Env) : Env := ⟨parent.vars⟩

/-- `Env::set`: insert, overwriting any previous binding of the name. -/
def Env.set (e : Env) (name : String) (value : ValueRuntime) : Env :=
  ⟨(name, value) :: e.vars⟩

/-- `Env::get`: look up a name (most recent binding wins). -/
def Env.get (e : Env) (name : String) : Option ValueRuntime :=
  e.vars.lookup name

/-- Expression AST (`Expr` in `src/ast.rs`). -/
inductive Expr where
  | Number (n : ℚ)
  | Str (s : String)
  | Bool (b : Bool)
  | Var (name : String)
  | List (items : List Expr)
  | Map (pairs : List (String × Expr))
  | Binary (left : Expr) (op : BinOp) (right : Expr)
  | Call (name : String) (args : List Expr)
  | MethodCall (class_name : String) (method_name : String) (args : List Expr)
  | If (branches : List (Expr × Expr)) (else_branch : Option Expr)
  | Repeat (count : Expr) (body : Expr)
  | Try (try_body : Expr) (catch_var : Option String) (catch_body : Option Expr)
      (finally_body : Option Expr)

/-- Endpoint body (`Body` in `src/ast.rs`): a parsed expression or raw JSON
text. -/
inductive Body where
  | TextExpr (e : Expr)
  | JsonRaw (s : String)

/-- `FunctionDef` in `src/ast.rs`. -/
structure FunctionDef where
  name : String
  params : List String
  body : Expr

/-- `ClassDef` in `src/ast.rs`; the method `HashMap` is modelled as an
association list keyed by method name. -/
structure ClassDef where
  name : String
  methods : List (String × FunctionDef)

/-- `RateLimit` in `src/ast.rs` (`u32` fields modelled as `Nat`; no claim
exercises their overflow behaviour). -/
structure RateLimit where
  max_requests : Nat
  window_secs : Nat
deriving DecidableEq, Repr

/-- HTTP method (`Method` in `src/ast.rs`). -/
inductive Method where
  | Get
  | Post
deriving DecidableEq, Repr

/-- `EndpointDecl` in `src/ast.rs`. -/
structure EndpointDecl where
  method : Method
  path : String
  body : Body
  rate_limit : Option RateLimit

/-- `ServerDecl` in `src/ast.rs` (`u16` port modelled as `Nat`). -/
structure ServerDecl where
  port : Nat
  tls : Bool
deriving DecidableEq, Repr

/-- `SecretDecl` in `src/ast.rs`. -/
structure SecretDecl where
  name : String
  key : String
deriving DecidableEq, Repr

/-- `ModelField` in `src/ast.rs`. -/
structure ModelField where
  name : String
  ty : String
  is_primary_key : Bool
  is_optional : Bool
deriving DecidableEq, Repr

/-- `ModelDef` in `src/ast.rs`. -/
structure ModelDef where
  name : String
  table_name : String
  fields : List ModelField
deriving DecidableEq, Repr

/-- `TestCase` in `src/ast.rs`. -/
structure TestCase where
  name : String
  assertions : List Expr

/-- `Program` in `src/ast.rs`; the name-keyed `HashMap`s are modelled as
association lists (the parser rejects duplicate keys, so first-match lookup
agrees with `HashMap` lookup). -/
structure Program where
  server : ServerDecl
  endpoints : List EndpointDecl
  functions : List (String × FunctionDef)
  classes : List (String × ClassDef)
  secrets : List SecretDecl
  tests : List TestCase
  models : List (String × ModelDef)

/-- A JSON number as held by `serde_json::Value::Number`: either an exact
integer (as parsed from integral JSON text within the `i64`/`u64` range) or
a float (every number built from a runtime `f64`, and out-of-range or
fractional parses). -/
inductive JNum where
  | int (i : Int)
  | float (q : ℚ)
deriving DecidableEq, Repr

/-- Model of `serde_json::Value`. -/
inductive Json where
  | null
  | bool (b : Bool)
  | num (n : JNum)
  | str (s : String)
  | arr (items : List Json)
  | obj (fields : List (String × Json))

/-- JSON insignificant whitespace (space, tab, line feed, carriage return). -/
def jsonWs (c : Char) : Bool :=
  c = ' ' || c = '\t' || c = '\n' || c = '\r'

/-- Drop leading JSON whitespace. -/
def skipWs (cs : List Char) : List Char :=
  cs.dropWhile jsonWs

/-- One lowercase hex digit. -/
def hexDigit (n : Nat) : Char :=
  if n < 10 then Char.ofNat (48 + n) else Char.ofNat (87 + n)

/-- Value of a hex digit character, if it is one. -/
def hexVal (c : Char) : Option Nat :=
  if '0' ≤ c ∧ c ≤ '9' then some (c.toNat - 48)
  else if 'a' ≤ c ∧ c ≤ 'f' then some (c.toNat - 87)
  else if 'A' ≤ c ∧ c ≤ 'F' then some (c.toNat - 55)
  else none

/-- Parse the body of a JSON string literal (after the opening quote) up to
its closing quote, decoding the escapes `serde_json` accepts.  A `\uXXXX`
escape is taken as a single code point; the surrogate-pair recombination
`serde_json` performs for `\uD800`–`\uDFFF` pairs is not modelled (no claim
exercises it), such escapes are rejected here. -/
def parseJsonStringBody : Nat → List Char → Option (String × List Char)
  | _, [] => none
  | _, '"' :: rest => some ("", rest)
  | 0, _ => none
  | fuel + 1, '\\' :: e :: rest =>
    let dec : Option (Char × List Char) :=
      match e, rest with
      | '"', r => some ('"', r)
      | '\\', r => some ('\\', r)
      | '/', r => some ('/', r)
      | 'b', r => some ('\x08', r)
      | 'f', r => some ('\x0c', r)
      | 'n', r => some ('\n', r)
      | 'r', r => some ('\r', r)
      | 't', r => some ('\t', r)
      | 'u', h1 :: h2 :: h3 :: h4 :: r =>
        match hexVal h1, hexVal h2, hexVal h3, hexVal h4 with
        | some a, some b, some c, some d =>
          let n := ((a * 16 + b) * 16 + c) * 16 + d
          if 0xd800 ≤ n ∧ n ≤ 0xdfff then none else some (Char.ofNat n, r)
        | _, _, _, _ => none
      | _, _ => none
    match dec with
    | some (c, r) =>
      match parseJsonStringBody fuel r with
      | some (s, r2) => some (String.singleton c ++ s, r2)
      | none => none
    | none => none
  | fuel + 1, c :: rest =>
    if c.toNat < 32 then none
    else
      match parseJsonStringBody fuel rest with
      | some (s, r2) => some (String.singleton c ++ s, r2)
      | none => none

/-- Parse a JSON string literal body with always-sufficient fuel (every
step consumes at least one input character). -/
def parseJsonString (cs : List Char) : Option (String × List Char) :=
  parseJsonStringBody (cs.length + 1) cs

/-- Parse a JSON number per the JSON grammar, classifying it the way
`serde_json` does: integral text within the `i64`/`u64` range becomes an
integer, everything else (fraction, exponent, out of range) becomes a
float.  The float value is kept exact here instead of rounded to `f64`
(and the `-0` corner, which `serde_json` keeps as the float `-0.0`, is an
integral zero here). -/
def parseJsonNumber (cs : List Char) : Option (JNum × List Char) :=
  let neg := match cs with
    | '-' :: _ => true
    | _ => false
  let cs1 := match cs with
    | '-' :: r => r
    | r => r
  let ipOpt : Option (List Char × List Char) :=
    match cs1 with
    | '0' :: r => some (['0'], r)
    | c :: _ =>
      if c.isDigit then some (cs1.takeWhile Char.isDigit, cs1.dropWhile Char.isDigit)
      else none
    | [] => none
  match ipOpt with
  | none => none
  | some (ip, cs2) =>
    let fpOpt : Option (List Char × List Char) :=
      match cs2 with
      | '.' :: r =>
        let ds := r.takeWhile Char.isDigit
        if ds.isEmpty then none else some (ds, r.dropWhile Char.isDigit)
      | _ => some ([], cs2)
    match fpOpt with
    | none => none
    | some (fp, cs3) =>
      let expOpt : Option (Int × List Char) :=
        match cs3 with
        | e :: r =>
          if e = 'e' ∨ e = 'E' then
            let esgn : Int := match r with
              | '-' :: _ => -1
              | _ => 1
            let r2 := match r with
              | '+' :: t => t
              | '-' :: t => t
              | t => t
            let ed := r2.takeWhile Char.isDigit
            if ed.isEmpty then none
            else some (esgn * (digitsVal ed : Int), r2.dropWhile Char.isDigit)
          else some (0, cs3)
        | [] => some (0, cs3)
      match expOpt with
      | none => none
      | some (ex, rest) =>
        let noExp : Bool :=
          match cs3 with
          | 'e' :: _ => false
          | 'E' :: _ => false
          | _ => true
        if fp.isEmpty && noExp then
          let mag : Int := digitsVal ip
          let i : Int := if neg then -mag else mag
          if neg then
            if -(2 ^ 63 : Int) ≤ i then some (.int i, rest)
            else some (.float i, rest)
          else
            if i ≤ (2 ^ 64 - 1 : Int) then some (.int i, rest)
            else some (.float i, rest)
        else
          let sgn : ℚ := if neg then -1 else 1
          let mant : ℚ := sgn * ((digitsVal (ip ++ fp) : ℚ) / ((10 : ℚ) ^ fp.length))
          some (.float (mant * (10 : ℚ) ^ ex), rest)

/-- Lexicographic character-list comparison, the order Rust's `Ord for
String` induces (comparing UTF-8 bytes orders strings exactly like
comparing their scalar values). -/
def charsLt : List Char → List Char → Bool
  | [], [] => false
  | [], _ :: _ => true
  | _ :: _, [] => false
  | a :: as, b :: bs =>
    if a.toNat < b.toNat then true
    else if b.toNat < a.toNat then false
    else charsLt as bs

/-- String comparison for the key order of `serde_json::Map`. -/
def stringLt (a b : String) : Bool :=
  charsLt a.data b.data

/-- Insertion into a `serde_json::Map` (a `BTreeMap` ordered by key in the
default configuration the sources use): keeps the field list sorted by key
and overwrites an existing key in place. -/
def mapInsert : List (String × Json) → String → Json → List (String × Json)
  | [], k, v => [(k, v)]
  | (k0, v0) :: rest, k, v =>
    if k == k0 then (k, v) :: rest
    else if stringLt k k0 then (k, v) :: (k0, v0) :: rest
    else (k0, v0) :: mapInsert rest k v

mutual

/-- Recursive-descent model of `serde_json::from_str`'s value grammar.  The
fuel argument only bounds nesting; every recursion level consumes at least
one input character, so the `s.length + 1` fuel supplied by `jsonParse`
never runs out (`serde_json` itself instead enforces a recursion-depth cap
of 128, which no claim exercises). -/
def parseJsonValue : Nat → List Char → Option (Json × List Char)
  | 0, _ => none
  | fuel + 1, cs0 =>
    let cs := skipWs cs0
    match cs with
    | 'n' :: 'u' :: 'l' :: 'l' :: r => some (.null, r)
    | 't' :: 'r' :: 'u' :: 'e' :: r => some (.bool true, r)
    | 'f' :: 'a' :: 'l' :: 's' :: 'e' :: r => some (.bool false, r)
    | '"' :: r =>
      match parseJsonString r with
      | some (s, r2) => some (.str s, r2)
      | none => none
    | '[' :: r =>
      match skipWs r with
      | ']' :: r2 => some (.arr [], r2)
      | r1 => (parseJsonItems fuel r1).map fun (vs, r2) => (.arr vs, r2)
    | '{' :: r =>
      match skipWs r with
      | '}' :: r2 => some (.obj [], r2)
      | r1 =>
        (parseJsonFields fuel r1).map fun (fs, r2) =>
          (.obj (fs.foldl (fun acc kv => mapInsert acc kv.1 kv.2) []), r2)
    | c :: _ =>
      if c = '-' ∨ c.isDigit then
        (parseJsonNumber cs).map fun (n, r) => (.num n, r)
      else none
    | [] => none
termination_by structural fuel => fuel

/-- Comma-separated JSON array elements up to the closing bracket. -/
def parseJsonItems : Nat → List Char → Option (List Json × List Char)
  | 0, _ => none
  | fuel + 1, cs =>
    match parseJsonValue fuel cs with
    | none => none
    | some (v, r) =>
      match skipWs r with
      | ',' :: r2 =>
        (parseJsonItems fuel r2).map fun (vs, r3) => (v :: vs, r3)
      | ']' :: r2 => some ([v], r2)
      | _ => none
termination_by structural fuel => fuel

/-- Comma-separated JSON object members up to the closing brace. -/
def parseJsonFields : Nat → List Char → Option (List (String × Json) × List Char)
  | 0, _ => none
  | fuel + 1, cs =>
    match skipWs cs with
    | '"' :: r =>
      match parseJsonString r with
      | none => none
      | some (k, r1) =>
        match skipWs r1 with
        | ':' :: r2 =>
          match parseJsonValue fuel r2 with
          | none => none
          | some (v, r3) =>
            match skipWs r3 with
            | ',' :: r4 =>
              (parseJsonFields fuel r4).map fun (fs, r5) => ((k, v) :: fs, r5)
            | '}' :: r4 => some ([(k, v)], r4)
            | _ => none
        | _ => none
    | _ => none
termination_by structural fuel => fuel

end

/-- Model of `serde_json::from_str::<Value>`: parse one JSON value and
require the remaining input to be whitespace. -/
def jsonParse (s : String) : Option Json :=
  match parseJsonValue (s.length + 1) s.data with
  | some (v, rest) => if (skipWs rest).isEmpty then some v else none
  | none => none

/-- Escape one character of a JSON string the way `serde_json`'s compact
serializer does (`"` and `\` escaped, control characters as short escapes
or `\u00XX`, nothing else touched). -/
def escapeJsonChar (c : Char) : String :=
  if c = '"' then "\\\""
  else if c = '\\' then "\\\\"
  else if c = '\x08' then "\\b"
  else if c = '\t' then "\\t"
  else if c = '\n' then "\\n"
  else if c = '\x0c' then "\\f"
  else if c = '\r' then "\\r"
  else if c.toNat < 32 then
    "\\u00" ++ String.singleton (hexDigit (c.toNat / 16)) ++
      String.singleton (hexDigit (c.toNat % 16))
  else String.singleton c

/-- Escape every character of a JSON string body. -/
def escapeJsonString (s : String) : String :=
  s.data.foldl (fun acc c => acc ++ escapeJsonChar c) ""

/-- Serialization of a JSON number.  An integer prints as plain digits; a
float whose value is integral prints with a trailing `.0` exactly as
`serde_json` prints an integral `f64`.  A non-integral float is again a
shortest-decimal floating-point rendering in Rust, abstracted here by the
rational's own rendering (no claim depends on that text). -/
def JNum.serialize : JNum → String
  | .int i => toString i
  | .float q => if q.den = 1 then toString q.num ++ ".0" else fracDisplay q

mutual

/-- Model of `serde_json::to_string` (compact form, no spaces). -/
def Json.serialize : Json → String
  | .null => "null"
  | .bool b => boolDisplay b
  | .num n => n.serialize
  | .str s => "\"" ++ escapeJsonString s ++ "\""
  | .arr items => "[" ++ serializeItems items ++ "]"
  | .obj fields => "\x7b" ++ serializeFields fields ++ "\x7d"
termination_by structural j => j

/-- Comma-separated serialization of array elements. -/
def serializeItems : List Json → String
  | [] => ""
  | [v] => v.serialize
  | v :: rest => v.serialize ++ "," ++ serializeItems rest
termination_by structural l => l

/-- Comma-separated serialization of object members. -/
def serializeFields : List (String × Json) → String
  | [] => ""
  | [(k, v)] => "\"" ++ escapeJsonString k ++ "\":" ++ v.serialize
  | (k, v) :: rest =>
    "\"" ++ escapeJsonString k ++ "\":" ++ v.serialize ++ "," ++ serializeFields rest
termination_by structural l => l

end

/-- Conversion of a runtime value into a JSON value (`value_to_json` in
`src/interpreter/eval.rs`): numbers and booleans become the corresponding
scalars (a number always as a float, since the runtime value is an `f64`),
and a string is first tried as JSON text — the parsed structure on
success, the raw string otherwise. -/
def value_to_json : ValueRuntime → Json
  | .Number n => .num (.float n)
  | .Bool b => .bool b
  | .Str s => (jsonParse s).getD (.str s)

/-- Outcome of one evaluator step: a value, a runtime error message, or
fuel exhaustion (a modelling artefact standing for a Rust evaluation that
recurses through user-defined calls deeper than the supplied fuel). -/
inductive EvalRes where
  | ok (v : ValueRuntime)
  | err (msg : String)
  | fuelOut
deriving DecidableEq, Repr

/-- Lift a fallible pure step into an evaluator outcome. -/
def ofExcept : Except String ValueRuntime → EvalRes
  | .ok v => .ok v
  | .error m => .err m

/-- Outcome of evaluating a sequence of expressions (function arguments,
list elements, map values). -/
inductive ArgsRes where
  | ok (vals : List ValueRuntime)
  | err (msg : String)
  | fuelOut
deriving DecidableEq, Repr

/-- Collect a sequence of evaluation outcomes left to right, stopping at
the first failure — the observable behaviour of the Rust loops that
evaluate argument lists and literal elements (evaluation is pure here, so
evaluating the later elements of the list has no further effect). -/
def collectVals : List EvalRes → ArgsRes
  | [] => .ok []
  | .ok v :: rest =>
    match collectVals rest with
    | .ok vs => .ok (v :: vs)
    | other => other
  | .err m :: _ => .err m
  | .fuelOut :: _ => .fuelOut

/-- Bind formal parameters to argument values on top of an environment, in
declaration order (later duplicates overwrite earlier ones, as repeated
`HashMap::insert` does). -/
def bindAll (env : Env) (params : List String) (vals : List ValueRuntime) : Env :=
  (params.zip vals).foldl (fun e pv => e.set pv.1 pv.2) env

/-- Calling a user-defined function or class method (`eval_function` in
`src/interpreter/eval.rs`): the argument count must match the parameter
count exactly, and the body runs in a full copy of the caller's entire
environment with the parameters then bound on top.  The Rust function
re-enters `eval_expr` on the callee's body; to keep the evaluator
structurally recursive on fuel that re-entry is passed in as the
continuation `k` (callers pass `fun env2 => eval_expr fuel func.body p
env2`), which changes no observable result. -/
def eval_function (k : Env → EvalRes) (func : FunctionDef)
    (arg_vals : List ValueRuntime) (parent_env : Env) : EvalRes :=
  if arg_vals.length ≠ func.params.length then
    let fname := func.name
    let expected := func.params.length
    let got := arg_vals.length
    .err s!"Function '{fname}' expected {expected} arguments, got {got}"
  else
    k (bindAll (Env.with_parent parent_env) func.params arg_vals)

/-- Model of `parse_json_array_numbers` in `src/interpreter/eval.rs`:
parse a JSON array of numbers (numeric strings allowed as elements) from
text, treating unparsable text as a single non-array value. -/
def parse_json_array_numbers (label : String) (text : String) :
    Except String (List ℚ) :=
  match (jsonParse text).getD (.str text) with
  | .arr items =>
    items.foldrM
      (fun v acc =>
        match v with
        | .num (.int i) => .ok ((i : ℚ) :: acc)
        | .num (.float q) => .ok (q :: acc)
        | .str s =>
          match parseF64 s with
          | some n => .ok (n :: acc)
          | none => .error s!"{label}: element '{s}' is not a number"
        | _ => .error s!"{label}: element is not a number")
      []
  | _ => .error s!"{label}: JSON value is not an array"

/-- Sum a list of values after numeric coercion (the accumulation loops of
`sum`/`avg` in `eval_builtin`). -/
def sumNums : List ValueRuntime → Except String ℚ
  | [] => .ok 0
  | v :: rest => do
    let n ← as_number v
    let t ← sumNums rest
    .ok (n + t)

/-- The `min`/`max` accumulation loop of `eval_builtin`. -/
def bestNum (keep : ℚ → ℚ → Bool) : ℚ → List ValueRuntime → Except String ℚ
  | best, [] => .ok best
  | best, v :: rest =>
    match as_number v with
    | .ok n => bestNum keep (if keep n best then n else best) rest
    | .error e => .error e

/-- Dispatch of a built-in call on its already-evaluated argument values
(the match of `eval_builtin` in `src/interpreter/eval.rs` after its
`eval_args` call).  The built-ins backed by process-wide mutable state or
by blocking I/O (`config_*`, `env`, `http_*`, `df_*`, `openai_*`) and the
two regression helpers are outside the pure fragment modelled here and are
mapped to a distinctive error; no claim exercises them.  Unknown names
fall through to the `Undefined function` error exactly as in the source. -/
def builtin_dispatch (name : String) (vals : List ValueRuntime) :
    Except String ValueRuntime :=
  match name with
  | "len" =>
    if vals.length ≠ 1 then .error "len(x) expects exactly 1 argument"
    else .ok (.Number ((vals.headD (.Str "")).display.length : ℚ))
  | "upper" =>
    if vals.length ≠ 1 then .error "upper(x) expects exactly 1 argument"
    else .ok (.Str (vals.headD (.Str "")).display.toUpper)
  | "lower" =>
    if vals.length ≠ 1 then .error "lower(x) expects exactly 1 argument"
    else .ok (.Str (vals.headD (.Str "")).display.toLower)
  | "number" =>
    if vals.length ≠ 1 then .error "number(x) expects exactly 1 argument"
    else (as_number (vals.headD (.Str ""))).map (.Number ·)
  | "string" =>
    if vals.length ≠ 1 then .error "string(x) expects exactly 1 argument"
    else .ok (.Str (vals.headD (.Str "")).display)
  | "sum" =>
    if vals.isEmpty then .error "sum(...) expects at least 1 argument"
    else (sumNums vals).map (.Number ·)
  | "avg" =>
    if vals.isEmpty then .error "avg(...) expects at least 1 argument"
    else (sumNums vals).map fun t => .Number (t / (vals.length : ℚ))
  | "min" =>
    match vals with
    | [] => .error "min(...) expects at least 1 argument"
    | v :: rest => do
      let first ← as_number v
      let best ← bestNum (fun n b => n < b) first rest
      .ok (.Number best)
  | "max" =>
    match vals with
    | [] => .error "max(...) expects at least 1 argument"
    | v :: rest => do
      let first ← as_number v
      let best ← bestNum (fun n b => b < n) first rest
      .ok (.Number best)
  | "vec" =>
    if vals.isEmpty then .error "vec(...) expects at least 1 argument"
    else
      let arr := vals.map fun v =>
        match as_number v with
        | .ok n => Json.num (.float n)
        | .error _ => Json.str v.display
      .ok (.Str (Json.serialize (.arr arr)))
  | "tensor_add" =>
    if vals.length ≠ 2 then .error "tensor_add(a, b) expects 2 arguments"
    else do
      let a ← parse_json_array_numbers "tensor_add a" (vals.headD (.Str "")).display
      let b ← parse_json_array_numbers "tensor_add b" ((vals.drop 1).headD (.Str "")).display
      if a.length ≠ b.length then .error "tensor_add: arrays must have the same length"
      else .ok (.Str (Json.serialize (.arr ((a.zip b).map fun xy => .num (.float (xy.1 + xy.2))))))
  | "tensor_dot" =>
    if vals.length ≠ 2 then .error "tensor_dot(a, b) expects 2 arguments"
    else do
      let a ← parse_json_array_numbers "tensor_dot a" (vals.headD (.Str "")).display
      let b ← parse_json_array_numbers "tensor_dot b" ((vals.drop 1).headD (.Str "")).display
      if a.length ≠ b.length then .error "tensor_dot: arrays must have the same length"
      else .ok (.Number (((a.zip b).map fun xy => xy.1 * xy.2).foldl (· + ·) 0))
  | "config_set" | "config_get" | "config_has" | "env"
  | "http_get" | "http_get_json"
  | "df_from_csv" | "df_head" | "df_select"
  | "linreg_fit" | "linreg_predict"
  | "openai_set_api_key" | "openai_set_system_prompt"
  | "openai_chat" | "openai_chat_json" | "openai_mcp_call" =>
    .error s!"builtin '{name}' is outside the pure fragment modelled here"
  | _ => .error s!"Undefined function '{name}'"

/-- One bounded-loop execution (the `for _ in 0..steps` loop of the
`Expr::Repeat` arm): starting from the default `""` value, run the body
evaluation once per step, keeping the last value and stopping at the first
failure. -/
def loopSteps (f : Unit → EvalRes) : ValueRuntime → Nat → EvalRes
  | last, 0 => .ok last
  | _, steps + 1 =>
    match f () with
    | .ok v => loopSteps f v steps
    | other => other

/-- Branch selection of the `Expr::If` arm: conditions are tried in order,
each coerced with `as_bool`; the first true one selects its body, a
missing match falls back to the else branch, and to the value `""` when
there is none. -/
def evalIfSeq : List ((Unit → EvalRes) × (Unit → EvalRes)) →
    Option (Unit → EvalRes) → EvalRes
  | [], els =>
    match els with
    | some f => f ()
    | none => .ok (.Str "")
  | (c, b) :: rest, els =>
    match c () with
    | .ok v =>
      match as_bool v with
      | .ok true => b ()
      | .ok false => evalIfSeq rest els
      | .error m => .err m
    | .err m => .err m
    | .fuelOut => .fuelOut

/-- Modelled from the spec: evaluation of `Expr::Try`.  The `eval_expr`
match in `src/interpreter/eval.rs` has no arm for `Expr::Try` — the
variant is declared in `src/ast.rs` and handled by the type checker in
`src/typecheck.rs`, but its evaluation code is not among the repository's
files — so this definition follows §4.3 of the spec: evaluate the try
body; on success that value is the candidate result; on failure with a
catch body present, the error message is bound as a string to the catch
variable (when given) in a derived environment and the catch body's value
is the candidate result; on failure with no catch body the error
propagates.  A present finally body is evaluated after that resolution
regardless of outcome; its value becomes the overall result when the
candidate succeeded, an error from it propagates and overrides a prior
success, and a propagating candidate error is preserved. -/
def evalTry (tryRes : Unit → EvalRes) (catchRes : Option (String → EvalRes))
    (finallyRes : Option (Unit → EvalRes)) : EvalRes :=
  let candidate : EvalRes :=
    match tryRes () with
    | .ok v => .ok v
    | .fuelOut => .fuelOut
    | .err msg =>
      match catchRes with
      | some f => f msg
      | none => .err msg
  match finallyRes with
  | none => candidate
  | some f =>
    match candidate with
    | .fuelOut => .fuelOut
    | c =>
      match f () with
      | .ok fv =>
        match c with
        | .err m => .err m
        | _ => .ok fv
      | .err m => .err m
      | .fuelOut => .fuelOut

/-- The expression evaluator (`eval_expr` in `src/interpreter/eval.rs`),
structurally recursive on a fuel counter that is consumed once per
recursion step.  Every arm mirrors the corresponding Rust match arm; the
argument-list, branch-list and loop helpers above receive the recursive
calls as thunks. -/
def eval_expr : Nat → Expr → Program → Env → EvalRes
  | 0, _, _, _ => .fuelOut
  | fuel + 1, e, p, env =>
    match e with
    | .Number n => .ok (.Number n)
    | .Str s => .ok (.Str s)
    | .Bool b => .ok (.Bool b)
    | .Var name =>
      match env.get name with
      | some v => .ok v
      | none => .err s!"Unknown variable '{name}'"
    | .Binary l op r =>
      match eval_expr fuel l p env with
      | .ok lv =>
        match eval_expr fuel r p env with
        | .ok rv => ofExcept (eval_binary lv op rv)
        | other => other
      | other => other
    | .Call name args =>
      match p.functions.lookup name with
      | some func =>
        match collectVals (args.map fun a => eval_expr fuel a p env) with
        | .ok vals =>
          eval_function (fun env2 => eval_expr fuel func.body p env2) func vals env
        | .err m => .err m
        | .fuelOut => .fuelOut
      | none =>
        match collectVals (args.map fun a => eval_expr fuel a p env) with
        | .ok vals => ofExcept (builtin_dispatch name vals)
        | .err m => .err m
        | .fuelOut => .fuelOut
    | .MethodCall cn mn args =>
      match p.classes.lookup cn with
      | none => .err s!"Undefined class '{cn}'"
      | some cls =>
        match cls.methods.lookup mn with
        | none => .err s!"Class '{cn}' has no method '{mn}'"
        | some m =>
          match collectVals (args.map fun a => eval_expr fuel a p env) with
          | .ok vals =>
            eval_function (fun env2 => eval_expr fuel m.body p env2) m vals env
          | .err msg => .err msg
          | .fuelOut => .fuelOut
    | .List items =>
      match collectVals (items.map fun it => eval_expr fuel it p env) with
      | .ok vals => .ok (.Str (Json.serialize (.arr (vals.map value_to_json))))
      | .err m => .err m
      | .fuelOut => .fuelOut
    | .Map pairs =>
      match collectVals (pairs.map fun kv => eval_expr fuel kv.2 p env) with
      | .ok vals =>
        let fields := ((pairs.map Prod.fst).zip (vals.map value_to_json)).foldl
          (fun acc kv => mapInsert acc kv.1 kv.2) []
        .ok (.Str (Json.serialize (.obj fields)))
      | .err m => .err m
      | .fuelOut => .fuelOut
    | .If branches els =>
      evalIfSeq
        (branches.map fun cb =>
          ((fun _ => eval_expr fuel cb.1 p env), (fun _ => eval_expr fuel cb.2 p env)))
        (els.map fun ee _ => eval_expr fuel ee p env)
    | .Repeat c b =>
      match eval_expr fuel c p env with
      | .ok cv =>
        match as_number cv with
        | .error m => .err m
        | .ok n =>
          if n < 0 then .err "repeat N times: N must be non-negative"
          else
            let steps := n.floor.toNat
            if steps > 10000 then .err "repeat N times: N is too large (max 10_000)"
            else loopSteps (fun _ => eval_expr fuel b p env) (.Str "") steps
      | other => other
    | .Try tb cv cb fb =>
      evalTry (fun _ => eval_expr fuel tb p env)
        (cb.map fun cbody msg =>
          eval_expr fuel cbody p
            (match cv with
             | some x => env.set x (.Str msg)
             | none => env))
        (fb.map fun fbody _ => eval_expr fuel fbody p env)

/-- Public evaluation entry point (`eval_body_expr` in
`src/interpreter/eval.rs`): seed a fresh environment with the supplied
string bindings, evaluate, and render the result value with its display
form.  `none` is the fuel-exhaustion artefact. -/
def eval_body_expr (fuel : Nat) (expr : Expr) (program : Program)
    (vars : List (String × String)) : Option (Except String String) :=
  let env := vars.foldl (fun e kv => e.set kv.1 (.Str kv.2)) Env.new
  match eval_expr fuel expr program env with
  | .ok v => some (.ok v.display)
  | .err m => some (.error m)
  | .fuelOut => none

/-- Whitespace as trimmed by the string helpers (Lean's `Char.isWhitespace`:
space, tab, carriage return, line feed).  Rust's `str::trim` additionally
trims the rare other Unicode `White_Space` code points; no claim exercises
those. -/
def wsChar (c : Char) : Bool :=
  c.isWhitespace

/-- Model of Rust `str::trim_start`, written over the character list so
that it reduces definitionally. -/
def strTrimLeft (s : String) : String :=
  String.mk (s.data.dropWhile wsChar)

/-- Model of Rust `str::trim_end`. -/
def strTrimRight (s : String) : String :=
  String.mk ((s.data.reverse.dropWhile wsChar).reverse)

/-- Model of Rust `str::trim`. -/
def strTrim (s : String) : String :=
  strTrimRight (strTrimLeft s)

/-- Model of Rust `str::starts_with`. -/
def strStartsWith (s pre : String) : Bool :=
  pre.data.isPrefixOf s.data

/-- Model of Rust `str::is_empty`. -/
def strIsEmpty (s : String) : Bool :=
  s.data.isEmpty

/-- Drop the first `n` characters of a string. -/
def strDrop (s : String) (n : Nat) : String :=
  String.mk (s.data.drop n)

/-- Result of one Shrimpl test case (`TestResult` in `src/tests.rs`). -/
structure TestResult where
  name : String
  passed : Bool
  failures : List String
deriving DecidableEq, Repr

/-- Evaluate one test assertion (`eval_assertion` in `src/tests.rs`): run
it through `eval_body_expr` and compare the trimmed result string with
`"true"`; evaluation errors pass through. -/
def eval_assertion (fuel : Nat) (expr : Expr) (program : Program)
    (vars : List (String × String)) : Option (Except String Bool) :=
  match eval_body_expr fuel expr program vars with
  | some (.ok value_str) => some (.ok (strTrim value_str == "true"))
  | some (.error e) => some (.error e)
  | none => none

/-- The assertion loop of `run_single_test` in `src/tests.rs`: evaluate
each assertion with the empty binding map and collect the failure messages
in order, attributing each by 1-based assertion index and test name. -/
def runAssertions (fuel : Nat) (program : Program) (tname : String) :
    Nat → List Expr → Option (List String)
  | _, [] => some []
  | idx, e :: rest =>
    let i := idx + 1
    match eval_assertion fuel e program [] with
    | none => none
    | some (.ok true) => runAssertions fuel program tname (idx + 1) rest
    | some (.ok false) =>
      (runAssertions fuel program tname (idx + 1) rest).map
        (fun fs => s!"assertion {i} in test '{tname}' evaluated to a non-true value" :: fs)
    | some (.error emsg) =>
      (runAssertions fuel program tname (idx + 1) rest).map
        (fun fs => s!"assertion {i} in test '{tname}' failed with error: {emsg}" :: fs)

/-- Run a single test case (`run_single_test` in `src/tests.rs`): the test
passes exactly when no assertion produced a failure message. -/
def run_single_test (fuel : Nat) (program : Program) (test : TestCase) :
    Option TestResult :=
  (runAssertions fuel program test.name 0 test.assertions).map
    (fun failures => ⟨test.name, failures.isEmpty, failures⟩)

/-- Run every test of a program (`run_program_tests` in `src/tests.rs`). -/
def run_program_tests (fuel : Nat) (program : Program) : Option (List TestResult) :=
  program.tests.mapM (run_single_test fuel program)

/-- Expression token kinds (`TokKind` in `src/parser/expr.rs`; the Rust
`Token` wrapper struct holds nothing but the kind and is flattened away). -/
inductive TokKind where
  | Number (n : ℚ)
  | Str (s : String)
  | Ident (name : String)
  | Plus | Minus | Star | Slash
  | LParen | RParen | Comma | Dot | Colon
  | EqEq | BangEq | Lt | Le | Gt | Ge
  | LBracket | RBracket | LBrace | RBrace
deriving DecidableEq, Repr

/-- Characters a numeric literal token may continue with (digits and dots;
a malformed multi-dot run is only rejected by the float parse). -/
def isNumTail (c : Char) : Bool :=
  c.isDigit || c == '.'

/-- Characters an identifier may continue with. -/
def isIdentTail (c : Char) : Bool :=
  c.isAlphanum || c == '_'

/-- The single-character operator and bracket tokens. -/
def simpleTok : Char → Option TokKind
  | '+' => some .Plus
  | '-' => some .Minus
  | '*' => some .Star
  | '/' => some .Slash
  | '(' => some .LParen
  | ')' => some .RParen
  | ',' => some .Comma
  | '.' => some .Dot
  | ':' => some .Colon
  | '[' => some .LBracket
  | ']' => some .RBracket
  | '\x7b' => some .LBrace
  | '\x7d' => some .RBrace
  | _ => none

/-- The scanning loop of `tokenize_expr` in `src/parser/expr.rs`.  The
fuel is only a structural-recursion device: every step consumes at least
one input character, so the `length + 1` fuel supplied by `tokenize_expr`
never runs out and the fuel-exhaustion arm is unreachable. -/
def tokenizeLoop : Nat → List Char → Except String (List TokKind)
  | 0, _ => .error "tokenizer fuel exhausted"
  | _, [] => .ok []
  | fuel + 1, c :: rest =>
    if c.isWhitespace then tokenizeLoop fuel rest
    else if c.isDigit then
      let ds := rest.takeWhile isNumTail
      let rem := rest.dropWhile isNumTail
      let text := String.mk (c :: ds)
      match parseF64 text with
      | none => .error s!"Invalid number literal '{text}'"
      | some q => (tokenizeLoop fuel rem).map (TokKind.Number q :: ·)
    else if c == '"' then
      let content := rest.takeWhile (fun ch => ch ≠ '"')
      let rem := rest.dropWhile (fun ch => ch ≠ '"')
      match rem with
      | [] => .error "Unterminated string literal"
      | _ :: r => (tokenizeLoop fuel r).map (TokKind.Str (String.mk content) :: ·)
    else if c == '=' then
      match rest with
      | '=' :: r => (tokenizeLoop fuel r).map (TokKind.EqEq :: ·)
      | _ => .error "Unexpected '=' in expression; use '==' for equality comparisons"
    else if c == '!' then
      match rest with
      | '=' :: r => (tokenizeLoop fuel r).map (TokKind.BangEq :: ·)
      | _ => .error "Unexpected '!' in expression; use '!=' for inequality comparisons"
    else if c == '<' then
      match rest with
      | '=' :: r => (tokenizeLoop fuel r).map (TokKind.Le :: ·)
      | _ => (tokenizeLoop fuel rest).map (TokKind.Lt :: ·)
    else if c == '>' then
      match rest with
      | '=' :: r => (tokenizeLoop fuel r).map (TokKind.Ge :: ·)
      | _ => (tokenizeLoop fuel rest).map (TokKind.Gt :: ·)
    else
      match simpleTok c with
      | some t => (tokenizeLoop fuel rest).map (t :: ·)
      | none =>
        if c.isAlpha || c == '_' then
          let ds := rest.takeWhile isIdentTail
          let rem := rest.dropWhile isIdentTail
          (tokenizeLoop fuel rem).map (TokKind.Ident (String.mk (c :: ds)) :: ·)
        else .error s!"Unexpected character '{c}' in expression"

/-- `tokenize_expr` in `src/parser/expr.rs`. -/
def tokenize_expr (s : String) : Except String (List TokKind) :=
  tokenizeLoop (s.length + 1) s.data

/-- Approximation of Rust's `derive(Debug)` rendering of a token, used
only inside parse-error message text that no claim inspects (the numeric
and string payload renderings are not digit/escape exact). -/
def tokDebug : TokKind → String
  | .Number n => "Number(" ++ JNum.serialize (.float n) ++ ")"
  | .Str s => "Str(\"" ++ s ++ "\")"
  | .Ident s => "Ident(\"" ++ s ++ "\")"
  | .Plus => "Plus"
  | .Minus => "Minus"
  | .Star => "Star"
  | .Slash => "Slash"
  | .LParen => "LParen"
  | .RParen => "RParen"
  | .Comma => "Comma"
  | .Dot => "Dot"
  | .Colon => "Colon"
  | .EqEq => "EqEq"
  | .BangEq => "BangEq"
  | .Lt => "Lt"
  | .Le => "Le"
  | .Gt => "Gt"
  | .Ge => "Ge"
  | .LBracket => "LBracket"
  | .RBracket => "RBracket"
  | .LBrace => "LBrace"
  | .RBrace => "RBrace"

/-- Debug rendering of the `Option<TokKind>` that `peek`/`bump` yield. -/
def tokHeadDebug : List TokKind → String
  | [] => "None"
  | t :: _ => "Some(" ++ tokDebug t ++ ")"

/-- `ExprParser::expect_colon`: consume a `:` or fail. -/
def expect_colon (ctx : String) (ts : List TokKind) :
    Except String (List TokKind) :=
  match ts with
  | .Colon :: rest => .ok rest
  | t => .error s!"Expected ':' after {ctx} condition, found {tokHeadDebug t}"

mutual

/-- `ExprParser::parse_expr` in `src/parser/expr.rs`: the top-level entry
special-cases a leading `if` or `repeat` keyword, otherwise descends into
the precedence chain.  The parser state (a token vector and a cursor) is
modelled by passing the remaining token list; the fuel is only a
structural-recursion device — between any two levels of descent at least
one token is consumed, so the fuel `parse_expr` supplies never runs out on
any input. -/
def parse_expr_toks : Nat → List TokKind → Except String (Expr × List TokKind)
  | 0, _ => .error "expression parser fuel exhausted"
  | fuel + 1, ts =>
    match ts with
    | .Ident "if" :: _ => parse_if_expr fuel ts
    | .Ident "repeat" :: _ => parse_repeat_expr fuel ts
    | _ => parse_or fuel ts
termination_by structural fuel => fuel

/-- `ExprParser::parse_or`. -/
def parse_or : Nat → List TokKind → Except String (Expr × List TokKind)
  | 0, _ => .error "expression parser fuel exhausted"
  | fuel + 1, ts =>
    match parse_and fuel ts with
    | .ok (e, ts1) => parse_or_tail fuel e ts1
    | .error m => .error m
termination_by structural fuel => fuel

/-- The `or` accumulation loop of `parse_or`. -/
def parse_or_tail : Nat → Expr → List TokKind → Except String (Expr × List TokKind)
  | 0, _, _ => .error "expression parser fuel exhausted"
  | fuel + 1, e, ts =>
    match ts with
    | .Ident n :: rest =>
      if n == "or" then
        match parse_and fuel rest with
        | .ok (r, ts2) => parse_or_tail fuel (.Binary e .Or r) ts2
        | .error m => .error m
      else .ok (e, ts)
    | _ => .ok (e, ts)
termination_by structural fuel => fuel

/-- `ExprParser::parse_and`. -/
def parse_and : Nat → List TokKind → Except String (Expr × List TokKind)
  | 0, _ => .error "expression parser fuel exhausted"
  | fuel + 1, ts =>
    match parse_comparison fuel ts with
    | .ok (e, ts1) => parse_and_tail fuel e ts1
    | .error m => .error m
termination_by structural fuel => fuel

/-- The `and` accumulation loop of `parse_and`. -/
def parse_and_tail : Nat → Expr → List TokKind → Except String (Expr × List TokKind)
  | 0, _, _ => .error "expression parser fuel exhausted"
  | fuel + 1, e, ts =>
    match ts with
    | .Ident n :: rest =>
      if n == "and" then
        match parse_comparison fuel rest with
        | .ok (r, ts2) => parse_and_tail fuel (.Binary e .And r) ts2
        | .error m => .error m
      else .ok (e, ts)
    | _ => .ok (e, ts)
termination_by structural fuel => fuel

/-- `ExprParser::parse_comparison`. -/
def parse_comparison : Nat → List TokKind → Except String (Expr × List TokKind)
  | 0, _ => .error "expression parser fuel exhausted"
  | fuel + 1, ts =>
    match parse_add_sub fuel ts with
    | .ok (e, ts1) => parse_comparison_tail fuel e ts1
    | .error m => .error m
termination_by structural fuel => fuel

/-- The comparison-operator accumulation loop of `parse_comparison`. -/
def parse_comparison_tail : Nat → Expr → List TokKind →
    Except String (Expr × List TokKind)
  | 0, _, _ => .error "expression parser fuel exhausted"
  | fuel + 1, e, ts =>
    match ts with
    | .EqEq :: rest => parse_comparison_step fuel e .Eq rest
    | .BangEq :: rest => parse_comparison_step fuel e .Ne rest
    | .Lt :: rest => parse_comparison_step fuel e .Lt rest
    | .Le :: rest => parse_comparison_step fuel e .Le rest
    | .Gt :: rest => parse_comparison_step fuel e .Gt rest
    | .Ge :: rest => parse_comparison_step fuel e .Ge rest
    | _ => .ok (e, ts)
termination_by structural fuel => fuel

/-- One iteration of the comparison loop after its operator was consumed. -/
def parse_comparison_step : Nat → Expr → BinOp → List TokKind →
    Except String (Expr × List TokKind)
  | 0, _, _, _ => .error "expression parser fuel exhausted"
  | fuel + 1, e, op, ts =>
    match parse_add_sub fuel ts with
    | .ok (r, ts2) => parse_comparison_tail fuel (.Binary e op r) ts2
    | .error m => .error m
termination_by structural fuel => fuel

/-- `ExprParser::parse_add_sub`. -/
def parse_add_sub : Nat → List TokKind → Except String (Expr × List TokKind)
  | 0, _ => .error "expression parser fuel exhausted"
  | fuel + 1, ts =>
    match parse_mul_div fuel ts with
    | .ok (e, ts1) => parse_add_sub_tail fuel e ts1
    | .error m => .error m
termination_by structural fuel => fuel

/-- The `+`/`-` accumulation loop of `parse_add_sub`. -/
def parse_add_sub_tail : Nat → Expr → List TokKind →
    Except String (Expr × List TokKind)
  | 0, _, _ => .error "expression parser fuel exhausted"
  | fuel + 1, e, ts =>
    match ts with
    | .Plus :: rest =>
      match parse_mul_div fuel rest with
      | .ok (r, ts2) => parse_add_sub_tail fuel (.Binary e .Add r) ts2
      | .error m => .error m
    | .Minus :: rest =>
      match parse_mul_div fuel rest with
      | .ok (r, ts2) => parse_add_sub_tail fuel (.Binary e .Sub r) ts2
      | .error m => .error m
    | _ => .ok (e, ts)
termination_by structural fuel => fuel

/-- `ExprParser::parse_mul_div`. -/
def parse_mul_div : Nat → List TokKind → Except String (Expr × List TokKind)
  | 0, _ => .error "expression parser fuel exhausted"
  | fuel + 1, ts =>
    match parse_factor fuel ts with
    | .ok (e, ts1) => parse_mul_div_tail fuel e ts1
    | .error m => .error m
termination_by structural fuel => fuel

/-- The `*`/`/` accumulation loop of `parse_mul_div`. -/
def parse_mul_div_tail : Nat → Expr → List TokKind →
    Except String (Expr × List TokKind)
  | 0, _, _ => .error "expression parser fuel exhausted"
  | fuel + 1, e, ts =>
    match ts with
    | .Star :: rest =>
      match parse_factor fuel rest with
      | .ok (r, ts2) => parse_mul_div_tail fuel (.Binary e .Mul r) ts2
      | .error m => .error m
    | .Slash :: rest =>
      match parse_factor fuel rest with
      | .ok (r, ts2) => parse_mul_div_tail fuel (.Binary e .Div r) ts2
      | .error m => .error m
    | _ => .ok (e, ts)
termination_by structural fuel => fuel

/-- `ExprParser::parse_factor`: literals, variables, calls, method calls,
parenthesized expressions, list and map literals. -/
def parse_factor : Nat → List TokKind → Except String (Expr × List TokKind)
  | 0, _ => .error "expression parser fuel exhausted"
  | fuel + 1, ts =>
    match ts with
    | .Number n :: rest => .ok (.Number n, rest)
    | .Str s :: rest => .ok (.Str s, rest)
    | .Ident name :: rest =>
      if name == "true" then .ok (.Bool true, rest)
      else if name == "false" then .ok (.Bool false, rest)
      else
        match rest with
        | .Dot :: rest2 =>
          match rest2 with
          | .Ident m :: rest3 =>
            match rest3 with
            | .LParen :: rest4 =>
              match parse_arg_list fuel rest4 with
              | .ok (args, ts2) => .ok (.MethodCall name m args, ts2)
              | .error e => .error e
            | _ => .error "Expected '(' after method name"
          | other => .error s!"Expected method name after '.', found {tokHeadDebug other}"
        | .LParen :: rest2 =>
          match parse_arg_list fuel rest2 with
          | .ok (args, ts2) => .ok (.Call name args, ts2)
          | .error e => .error e
        | _ => .ok (.Var name, rest)
    | .LParen :: rest =>
      match parse_expr_toks fuel rest with
      | .ok (e, ts2) =>
        match ts2 with
        | .RParen :: rest2 => .ok (e, rest2)
        | other => .error s!"Expected ')', found {tokHeadDebug other}"
      | .error e => .error e
    | .LBracket :: rest => parse_list_literal fuel rest
    | .LBrace :: rest => parse_map_literal fuel rest
    | other => .error s!"Unexpected token in expression: {tokHeadDebug other}"
termination_by structural fuel => fuel

/-- `ExprParser::parse_arg_list` (after the opening parenthesis). -/
def parse_arg_list : Nat → List TokKind → Except String (List Expr × List TokKind)
  | 0, _ => .error "expression parser fuel exhausted"
  | fuel + 1, ts =>
    match ts with
    | .RParen :: rest => .ok ([], rest)
    | _ => parse_arg_loop fuel ts
termination_by structural fuel => fuel

/-- The element loop of `parse_arg_list`. -/
def parse_arg_loop : Nat → List TokKind → Except String (List Expr × List TokKind)
  | 0, _ => .error "expression parser fuel exhausted"
  | fuel + 1, ts =>
    match parse_expr_toks fuel ts with
    | .ok (e, ts1) =>
      match ts1 with
      | .Comma :: rest =>
        match parse_arg_loop fuel rest with
        | .ok (args, ts2) => .ok (e :: args, ts2)
        | .error m => .error m
      | .RParen :: rest => .ok ([e], rest)
      | other => .error s!"Expected ',' or ')' in argument list, found {tokHeadDebug other}"
    | .error e => .error e
termination_by structural fuel => fuel

/-- `ExprParser::parse_list_literal` (after the opening bracket). -/
def parse_list_literal : Nat → List TokKind → Except String (Expr × List TokKind)
  | 0, _ => .error "expression parser fuel exhausted"
  | fuel + 1, ts =>
    match ts with
    | .RBracket :: rest => .ok (.List [], rest)
    | _ =>
      match parse_list_loop fuel ts with
      | .ok (items, ts2) => .ok (.List items, ts2)
      | .error m => .error m
termination_by structural fuel => fuel

/-- The element loop of `parse_list_literal`. -/
def parse_list_loop : Nat → List TokKind → Except String (List Expr × List TokKind)
  | 0, _ => .error "expression parser fuel exhausted"
  | fuel + 1, ts =>
    match parse_expr_toks fuel ts with
    | .ok (e, ts1) =>
      match ts1 with
      | .Comma :: rest =>
        match parse_list_loop fuel rest with
        | .ok (items, ts2) => .ok (e :: items, ts2)
        | .error m => .error m
      | .RBracket :: rest => .ok ([e], rest)
      | other => .error s!"Expected ',' or ']' in list literal, found {tokHeadDebug other}"
    | .error e => .error e
termination_by structural fuel => fuel

/-- `ExprParser::parse_map_literal` (after the opening brace). -/
def parse_map_literal : Nat → List TokKind → Except String (Expr × List TokKind)
  | 0, _ => .error "expression parser fuel exhausted"
  | fuel + 1, ts =>
    match ts with
    | .RBrace :: rest => .ok (.Map [], rest)
    | _ =>
      match parse_map_loop fuel ts with
      | .ok (entries, ts2) => .ok (.Map entries, ts2)
      | .error m => .error m
termination_by structural fuel => fuel

/-- The entry loop of `parse_map_literal`: a key (identifier or string), a
colon, a value expression, then a comma or the closing brace. -/
def parse_map_loop : Nat → List TokKind →
    Except String (List (String × Expr) × List TokKind)
  | 0, _ => .error "expression parser fuel exhausted"
  | fuel + 1, ts =>
    match ts with
    | .Ident k :: rest => parse_map_entry fuel k rest
    | .Str k :: rest => parse_map_entry fuel k rest
    | other => .error s!"Expected identifier or string as map key, found {tokHeadDebug other}"
termination_by structural fuel => fuel

/-- One entry of the map-literal loop, after its key was consumed. -/
def parse_map_entry : Nat → String → List TokKind →
    Except String (List (String × Expr) × List TokKind)
  | 0, _, _ => .error "expression parser fuel exhausted"
  | fuel + 1, k, ts =>
    match ts with
    | .Colon :: rest =>
      match parse_expr_toks fuel rest with
      | .ok (v, ts1) =>
        match ts1 with
        | .Comma :: rest2 =>
          match parse_map_loop fuel rest2 with
          | .ok (entries, ts2) => .ok ((k, v) :: entries, ts2)
          | .error m => .error m
        | .RBrace :: rest2 => .ok ([(k, v)], rest2)
        | other => .error s!"Expected ',' or '\x7d' in map literal, found {tokHeadDebug other}"
      | .error e => .error e
    | other => .error s!"Expected ':' after map key, found {tokHeadDebug other}"
termination_by structural fuel => fuel

/-- `ExprParser::parse_if_expr`: `if cond: expr` with `elif`/`else`
continuations; must lead the expression. -/
def parse_if_expr : Nat → List TokKind → Except String (Expr × List TokKind)
  | 0, _ => .error "expression parser fuel exhausted"
  | fuel + 1, ts =>
    match ts with
    | .Ident n :: rest =>
      if n == "if" then
        match parse_or fuel rest with
        | .ok (cond, ts1) =>
          match expect_colon "if" ts1 with
          | .ok ts2 =>
            match parse_expr_toks fuel ts2 with
            | .ok (body, ts3) => parse_if_tail fuel [(cond, body)] ts3
            | .error e => .error e
          | .error e => .error e
        | .error e => .error e
      else
        .error s!"Internal parser error: expected 'if' at start of if-expression, found {tokHeadDebug ts}"
    | other =>
      .error s!"Internal parser error: expected 'if' at start of if-expression, found {tokHeadDebug other}"
termination_by structural fuel => fuel

/-- The `elif`/`else` loop of `parse_if_expr`, carrying the branches
collected so far. -/
def parse_if_tail : Nat → List (Expr × Expr) → List TokKind →
    Except String (Expr × List TokKind)
  | 0, _, _ => .error "expression parser fuel exhausted"
  | fuel + 1, branches, ts =>
    match ts with
    | .Ident n :: rest =>
      if n == "elif" then
        match parse_or fuel rest with
        | .ok (cond, ts1) =>
          match expect_colon "elif" ts1 with
          | .ok ts2 =>
            match parse_expr_toks fuel ts2 with
            | .ok (body, ts3) => parse_if_tail fuel (branches ++ [(cond, body)]) ts3
            | .error e => .error e
          | .error e => .error e
        | .error e => .error e
      else if n == "else" then
        match expect_colon "else" rest with
        | .ok ts2 =>
          match parse_expr_toks fuel ts2 with
          | .ok (body, ts3) => .ok (.If branches (some body), ts3)
          | .error e => .error e
        | .error e => .error e
      else .ok (.If branches none, ts)
    | _ => .ok (.If branches none, ts)
termination_by structural fuel => fuel

/-- `ExprParser::parse_repeat_expr`: `repeat <count> times: <body>`. -/
def parse_repeat_expr : Nat → List TokKind → Except String (Expr × List TokKind)
  | 0, _ => .error "expression parser fuel exhausted"
  | fuel + 1, ts =>
    match ts with
    | .Ident n :: rest =>
      if n == "repeat" then
        match parse_or fuel rest with
        | .ok (count, ts1) =>
          match ts1 with
          | .Ident t :: rest2 =>
            if t == "times" then
              match expect_colon "repeat" rest2 with
              | .ok ts2 =>
                match parse_expr_toks fuel ts2 with
                | .ok (body, ts3) => .ok (.Repeat count body, ts3)
                | .error e => .error e
              | .error e => .error e
            else
              .error s!"Expected 'times' after repeat-count expression, found {tokHeadDebug ts1}"
          | other =>
            .error s!"Expected 'times' after repeat-count expression, found {tokHeadDebug other}"
        | .error e => .error e
      else
        .error s!"Internal parser error: expected 'repeat' at start of repeat-expression, found {tokHeadDebug ts}"
    | other =>
      .error s!"Internal parser error: expected 'repeat' at start of repeat-expression, found {tokHeadDebug other}"
termination_by structural fuel => fuel

end

/-- `parse_expr` in `src/parser/expr.rs`: tokenize, parse, and require all
tokens consumed.  The fuel bound is generous — the parser descends at most
a fixed number of levels between token consumptions — and can never be hit
(its exhaustion error is a modelling artefact no input reaches). -/
def parse_expr (s : String) : Except String Expr :=
  match tokenize_expr s with
  | .error e => .error e
  | .ok tokens =>
    match parse_expr_toks (10 * (tokens.length + 2)) tokens with
    | .error e => .error e
    | .ok (e, rest) =>
      if rest.isEmpty then .ok e
      else .error "Unexpected tokens after end of expression"

/-- `extract_quoted` in `src/parser/mod.rs`: the first double-quoted
substring of a line together with the text after its closing quote. -/
def extract_quoted (s : String) (line_no : Nat) (what : String) :
    Except String (String × String) :=
  match s.data.dropWhile (fun c => c ≠ '"') with
  | [] => .error s!"Line {line_no}: expected opening '\"' for {what} string"
  | _ :: after_start =>
    let content := after_start.takeWhile (fun c => c ≠ '"')
    match after_start.dropWhile (fun c => c ≠ '"') with
    | [] => .error s!"Line {line_no}: expected closing '\"' for {what} string"
    | _ :: rest => .ok (String.mk content, String.mk rest)

/-- `parse_body_spec` in `src/parser/mod.rs`: a body starting with the
token `json` is stored as raw JSON text, any other body text goes through
the expression parser. -/
def parse_body_spec (s : String) (line_no : Nat) : Except String Body :=
  let trimmed := strTrim s
  if strStartsWith trimmed "json" then
    let rest := strTrimLeft (strDrop trimmed 4)
    if strIsEmpty rest then
      .error s!"Line {line_no}: expected JSON expression after 'json'"
    else .ok (.JsonRaw rest)
  else
    match parse_expr trimmed with
    | .ok e => .ok (.TextExpr e)
    | .error e => .error s!"Line {line_no} (body expression): {e}"

/-- The forward-scanning loop of `parse_endpoint` for an endpoint whose
header line has nothing after the colon: skip blank and comment lines, and
parse exactly one following line as the body; reaching the end of the file
is the `missing body expression` error of the header's line number.
`j` is the 0-based index of the first line of the list within the file. -/
def endpointScan (method : Method) (path : String) (line_no : Nat) :
    List String → Nat → Except String (EndpointDecl × Nat)
  | [], _ =>
    .error s!"Line {line_no}: endpoint declaration missing body expression after ':'"
  | l :: rest, j =>
    let body_trimmed := strTrim l
    if strIsEmpty body_trimmed || strStartsWith body_trimmed "#" then
      endpointScan method path line_no rest (j + 1)
    else
      match parse_body_spec body_trimmed (j + 1) with
      | .ok body => .ok (⟨method, path, body, none⟩, j + 1)
      | .error e => .error e

/-- `parse_endpoint` in `src/parser/mod.rs`: parse the header line
(`endpoint METHOD "path": [body]`) at index `start`, taking the body from
the same line when the text after the colon is non-empty and otherwise
scanning forward with `endpointScan`; the returned index is the first line
after the declaration.  The Rust function indexes `lines[start]`
unconditionally (its caller guarantees the bound); an out-of-range start
is mapped to an error here. -/
def parse_endpoint (lines : List String) (start : Nat) :
    Except String (EndpointDecl × Nat) :=
  match lines.get? start with
  | none => .error "parse_endpoint: start index out of range"
  | some raw_line =>
    let line_no := start + 1
    let line := strTrim raw_line
    if ¬ strStartsWith line "endpoint" then
      .error s!"Line {line_no}: endpoint line must start with 'endpoint'"
    else
      let rest := strTrimLeft (strDrop line 8)
      let method_str := String.mk (rest.data.takeWhile (fun c => c ≠ ' '))
      match rest.data.dropWhile (fun c => c ≠ ' ') with
      | [] => .error s!"Line {line_no}: missing path after method"
      | _ :: after_space =>
        let rest_after_method := strTrimLeft (String.mk after_space)
        let methodOpt : Option Method :=
          if method_str == "GET" then some .Get
          else if method_str == "POST" then some .Post
          else none
        match methodOpt with
        | none =>
          .error s!"Line {line_no}: unsupported method '{method_str}'; only GET and POST are supported for now"
        | some method =>
          match extract_quoted rest_after_method line_no "path" with
          | .error e => .error e
          | .ok (path, rest_after_path) =>
            let rest_after_path := strTrimLeft rest_after_path
            match rest_after_path.data.dropWhile (fun c => c ≠ ':') with
            | [] =>
              .error s!"Line {line_no}: expected ':' after path in endpoint declaration"
            | _ :: after_colon_chars =>
              let after_colon := strTrimLeft (String.mk after_colon_chars)
              if ¬ strIsEmpty after_colon then
                match parse_body_spec after_colon line_no with
                | .ok body => .ok (⟨method, path, body, none⟩, start + 1)
                | .error e => .error e
              else
                endpointScan method path line_no (lines.drop (start + 1)) (start + 1)

/-- The parse-then-evaluate pipeline for one expression source string, as
the endpoint and test machinery compose it: parse with `parse_expr`, then
evaluate with `eval_body_expr` under the given bindings. -/
def eval_source (fuel : Nat) (program : Program) (vars : List (String × String))
    (src : String) : Option (Except String String) :=
  match parse_expr src with
  | .error e => some (.error e)
  | .ok ex => eval_body_expr fuel ex program vars

/-- A minimal program (a bare `server` declaration), the evaluation context
for expressions that reference no user-defined functions. -/
def nullProgram : Program :=
  ⟨⟨3000, false⟩, [], [], [], [], [], []⟩

/-- Shape test: is the value a number? -/
def isNumberValue (v : ValueRuntime) : Bool :=
  match v with
  | .Number _ => true
  | _ => false

/-- Shape test: is the value a boolean? -/
def isBoolValue (v : ValueRuntime) : Bool :=
  match v with
  | .Bool _ => true
  | _ => false

/-- A program with one zero-parameter function `f` whose body reads the
free variable `x`. -/
def freeVarProgram : Program :=
  ⟨⟨3000, false⟩, [], [("f", ⟨"f", [], .Var "x"⟩)], [], [], [], []⟩

/-- The skip condition of the statement parser's scanning loops: a line is
blank or a `#` comment after trimming. -/
def blankOrCommentLine (l : String) : Bool :=
  strIsEmpty (strTrim l) || strStartsWith (strTrim l) "#"

/-- C3: for every Binary expression, both operand subexpressions are
evaluated eagerly before the operator is applied, regardless of the
operator — `and`/`or` do not short-circuit — so evaluating
`false and (1/0 == 0)` returns a division-by-zero error rather than the
value `"false"`. -/
theorem claim_C3_binary_eager :
    (∀ fuel l op r p env,
      eval_expr (fuel + 1) (.Binary l op r) p env =
        match eval_expr fuel l p env with
        | .ok lv =>
          match eval_expr fuel r p env with
          | .ok rv => ofExcept (eval_binary lv op rv)
          | other => other
        | other => other) ∧
    (∀ fuel l r p env msg,
      eval_expr fuel l p env = .ok (.Bool false) →
      eval_expr fuel r p env = .err msg →
      eval_expr (fuel + 1) (.Binary l .And r) p env = .err msg) ∧
    eval_source 10 nullProgram [] "false and (1/0 == 0)" =
      some (.error "Division by zero") := by
  refine ⟨fun fuel l op r p env => rfl, fun fuel l r p env msg h1 h2 => ?_, rfl⟩
  simp only [eval_expr, h1, h2]

/-- Witness for C3 at a concrete input: the left operand is the literal
`false`, the right operand is `1/0 == 0`, and the conjunction still
errors. -/
theorem claim_C3_binary_eager_witness :
    eval_expr 3 (Expr.Bool false) nullProgram Env.new = .ok (.Bool false) ∧
    eval_expr 3 (Expr.Binary (.Binary (.Number 1) .Div (.Number 0)) .Eq (.Number 0))
      nullProgram Env.new = .err "Division by zero" ∧
    eval_expr 4 (Expr.Binary (.Bool false) .And
        (.Binary (.Binary (.Number 1) .Div (.Number 0)) .Eq (.Number 0)))
      nullProgram Env.new = .err "Division by zero" :=
  ⟨rfl, rfl,
    claim_C3_binary_eager.2.1 3 (.Bool false)
      (.Binary (.Binary (.Number 1) .Div (.Number 0)) .Eq (.Number 0))
      nullProgram Env.new "Division by zero" rfl rfl⟩

/-- C4: evaluating `+` on two numbers gives their numeric sum; on every
other combination of operand types it gives the concatenation of the two
display forms, where an integral number renders without a trailing `.0`
and booleans render `true`/`false` — so `"a" + 1` is `"a1"` and `1 + 2`
is `"3"`. -/
theorem claim_C4_add_semantics :
    (∀ a b : ℚ, eval_binary (.Number a) .Add (.Number b) = .ok (.Number (a + b))) ∧
    (∀ l r : ValueRuntime, (isNumberValue l && isNumberValue r) = false →
      eval_binary l .Add r = .ok (.Str (l.display ++ r.display))) ∧
    (∀ n : ℚ, n.den = 1 → (ValueRuntime.Number n).display = toString n.num) ∧
    (ValueRuntime.Bool true).display = "true" ∧
    (ValueRuntime.Bool false).display = "false" ∧
    eval_source 10 nullProgram [] "\"a\" + 1" = some (.ok "a1") ∧
    eval_source 10 nullProgram [] "1 + 2" = some (.ok "3") := by
  refine ⟨fun a b => rfl, ?_, fun n h => ?_, rfl, rfl, rfl, rfl⟩
  · intro l r h
    cases l <;> cases r <;> simp_all [eval_binary, isNumberValue]
  · simp [ValueRuntime.display, h]

/-- Witness for C4 at concrete inputs: a string-and-number addition
concatenates display forms, and an integral number displays without a
trailing `.0`. -/
theorem claim_C4_add_semantics_witness :
    eval_binary (.Str "a") .Add (.Number 1) =
      .ok (.Str ((ValueRuntime.Str "a").display ++ (ValueRuntime.Number 1).display)) ∧
    (ValueRuntime.Number 3).display = toString (3 : ℚ).num :=
  ⟨claim_C4_add_semantics.2.1 (.Str "a") (.Number 1) rfl,
    claim_C4_add_semantics.2.2.1 3 (by decide)⟩

/-- C5: `==`/`!=` compare number-with-number and boolean-with-boolean
natively, and every other combination of operand types by the display
strings of the operands — so `1 == "1"` evaluates to `"true"`. -/
theorem claim_C5_eq_by_display :
    (∀ a b : ℚ, eval_binary (.Number a) .Eq (.Number b) = .ok (.Bool (decide (a = b)))) ∧
    (∀ a b : Bool, eval_binary (.Bool a) .Eq (.Bool b) = .ok (.Bool (a == b))) ∧
    (∀ a b : ℚ, eval_binary (.Number a) .Ne (.Number b) = .ok (.Bool (decide (a ≠ b)))) ∧
    (∀ a b : Bool, eval_binary (.Bool a) .Ne (.Bool b) = .ok (.Bool (a != b))) ∧
    (∀ l r : ValueRuntime, (isNumberValue l && isNumberValue r) = false →
      (isBoolValue l && isBoolValue r) = false →
      eval_binary l .Eq r = .ok (.Bool (l.display == r.display)) ∧
      eval_binary l .Ne r = .ok (.Bool (l.display != r.display))) ∧
    eval_source 10 nullProgram [] "1 == \"1\"" = some (.ok "true") := by
  refine ⟨fun a b => rfl, fun a b => rfl, fun a b => rfl, fun a b => rfl, ?_, rfl⟩
  intro l r h1 h2
  cases l <;> cases r <;>
    simp_all [eval_binary, isNumberValue, isBoolValue]

/-- Witness for C5 at a concrete input: a number and a string compare by
display form. -/
theorem claim_C5_eq_by_display_witness :
    eval_binary (.Number 1) .Eq (.Str "1") =
      .ok (.Bool ((ValueRuntime.Number 1).display == (ValueRuntime.Str "1").display)) ∧
    eval_binary (.Number 1) .Ne (.Str "1") =
      .ok (.Bool ((ValueRuntime.Number 1).display != (ValueRuntime.Str "1").display)) :=
  ⟨(claim_C5_eq_by_display.2.2.2.2.1 (.Number 1) (.Str "1") rfl rfl).1,
    (claim_C5_eq_by_display.2.2.2.2.1 (.Number 1) (.Str "1") rfl rfl).2⟩

/-- C10: the truthiness coercion is total over runtime values — boolean
as-is, number true iff nonzero, string true iff non-empty — so `and`/`or`
applications and `if` conditions can only fail inside their operand
subexpressions, never in the boolean coercion step. -/
theorem claim_C10_truthiness_total :
    (∀ v : ValueRuntime, ∃ b, as_bool v = .ok b) ∧
    (∀ b : Bool, as_bool (.Bool b) = .ok b) ∧
    (∀ n : ℚ, as_bool (.Number n) = .ok (decide (n ≠ 0))) ∧
    (∀ s : String, as_bool (.Str s) = .ok (!s.isEmpty)) ∧
    (∀ lv rv op, (op = BinOp.And ∨ op = BinOp.Or) →
      ∃ b, eval_binary lv op rv = .ok (.Bool b)) ∧
    (∀ fuel l r p env lv rv op, (op = BinOp.And ∨ op = BinOp.Or) →
      eval_expr fuel l p env = .ok lv → eval_expr fuel r p env = .ok rv →
      ∃ b, eval_expr (fuel + 1) (.Binary l op r) p env = .ok (.Bool b)) ∧
    (∀ branches els fuel p env,
      eval_expr (fuel + 1) (.If branches els) p env =
        evalIfSeq
          (branches.map fun cb =>
            ((fun _ => eval_expr fuel cb.1 p env), (fun _ => eval_expr fuel cb.2 p env)))
          (els.map fun ee _ => eval_expr fuel ee p env)) ∧
    (∀ (cf bf : Unit → EvalRes) rest els v, cf () = .ok v →
      ∃ b, as_bool v = .ok b ∧
        evalIfSeq ((cf, bf) :: rest) els = (if b then bf () else evalIfSeq rest els)) := by
  have htot : ∀ v : ValueRuntime, ∃ b, as_bool v = .ok b := by
    intro v
    cases v with
    | Number n => exact ⟨_, rfl⟩
    | Str s => exact ⟨_, rfl⟩
    | Bool b => exact ⟨_, rfl⟩
  have hbin : ∀ lv rv op, (op = BinOp.And ∨ op = BinOp.Or) →
      ∃ b, eval_binary lv op rv = .ok (.Bool b) := by
    intro lv rv op hop
    obtain ⟨b1, hb1⟩ := htot lv
    obtain ⟨b2, hb2⟩ := htot rv
    rcases hop with h | h <;> subst h
    · exact ⟨b1 && b2, by simp only [eval_binary, hb1, hb2]; rfl⟩
    · exact ⟨b1 || b2, by simp only [eval_binary, hb1, hb2]; rfl⟩
  refine ⟨htot, fun b => rfl, fun n => rfl, fun s => rfl, hbin, ?_, fun branches els fuel p env => rfl, ?_⟩
  · intro fuel l r p env lv rv op hop hl hr
    obtain ⟨b, hb⟩ := hbin lv rv op hop
    exact ⟨b, by simp only [eval_expr, hl, hr, hb, ofExcept]⟩
  · intro cf bf rest els v hcf
    obtain ⟨b, hb⟩ := htot v
    refine ⟨b, hb, ?_⟩
    cases b <;> simp [evalIfSeq, hcf, hb]

/-- Witness for C10 at concrete inputs: an `and` of a nonzero number and a
non-empty string coerces both operands without error, and an `if`
condition already evaluated to a value selects a branch without error. -/
theorem claim_C10_truthiness_total_witness :
    (∃ b, eval_binary (.Number 2) .And (.Str "x") = .ok (.Bool b)) ∧
    (∃ b, eval_expr 2 (.Binary (.Number 2) .Or (.Str "")) nullProgram Env.new =
      .ok (.Bool b)) ∧
    (∃ b, as_bool (.Number 2) = .ok b ∧
      evalIfSeq [((fun _ => .ok (.Number 2)), (fun _ => .ok (.Str "yes")))] none =
        (if b then (fun _ : Unit => EvalRes.ok (.Str "yes")) () else evalIfSeq [] none)) :=
  ⟨claim_C10_truthiness_total.2.2.2.2.1 (.Number 2) (.Str "x") .And (Or.inl rfl),
    claim_C10_truthiness_total.2.2.2.2.2.1 1 (.Number 2) (.Str "") nullProgram Env.new
      (.Number 2) (.Str "") .Or (Or.inr rfl) rfl rfl,
    claim_C10_truthiness_total.2.2.2.2.2.2.2
      (fun _ => .ok (.Number 2)) (fun _ => .ok (.Str "yes")) [] none (.Number 2) rfl⟩

/-- C1: a Try expression first evaluates its try body; a success is the
candidate result; a failure with a catch body present binds the error
message as a string to the catch variable (when given) in a derived
environment and evaluates the catch body, swallowing the error; a failure
with no catch body propagates.  (The evaluation of `Expr::Try` is
spec-modelled by `evalTry`: see that definition's comment.) -/
theorem claim_C1_try_catch :
    (∀ fuel tb cv cb fb p env,
      eval_expr (fuel + 1) (.Try tb cv cb fb) p env =
        evalTry (fun _ => eval_expr fuel tb p env)
          (cb.map fun cbody msg =>
            eval_expr fuel cbody p
              (match cv with
               | some x => env.set x (.Str msg)
               | none => env))
          (fb.map fun fbody _ => eval_expr fuel fbody p env)) ∧
    (∀ fuel tb cv cb p env v, eval_expr fuel tb p env = .ok v →
      eval_expr (fuel + 1) (.Try tb cv cb none) p env = .ok v) ∧
    (∀ fuel tb x cbody p env msg, eval_expr fuel tb p env = .err msg →
      eval_expr (fuel + 1) (.Try tb (some x) (some cbody) none) p env =
        eval_expr fuel cbody p (env.set x (.Str msg))) ∧
    (∀ fuel tb cbody p env msg, eval_expr fuel tb p env = .err msg →
      eval_expr (fuel + 1) (.Try tb none (some cbody) none) p env =
        eval_expr fuel cbody p env) ∧
    (∀ fuel tb cv p env msg, eval_expr fuel tb p env = .err msg →
      eval_expr (fuel + 1) (.Try tb cv none none) p env = .err msg) := by
  refine ⟨fun fuel tb cv cb fb p env => rfl,
    fun fuel tb cv cb p env v h => ?_,
    fun fuel tb x cbody p env msg h => ?_,
    fun fuel tb cbody p env msg h => ?_,
    fun fuel tb cv p env msg h => ?_⟩
  · simp [eval_expr, evalTry, h]
  · simp [eval_expr, evalTry, h]
  · simp [eval_expr, evalTry, h]
  · simp [eval_expr, evalTry, h]

/-- Witness for C1 at a concrete input: a division-by-zero error in the
try body is caught and its message is bound to the catch variable, and the
same error propagates when no catch body is present. -/
theorem claim_C1_try_catch_witness :
    eval_expr 3 (.Try (.Binary (.Number 1) .Div (.Number 0)) (some "e")
        (some (.Var "e")) none) nullProgram Env.new =
      eval_expr 2 (.Var "e") nullProgram (Env.new.set "e" (.Str "Division by zero")) ∧
    eval_expr 3 (.Try (.Binary (.Number 1) .Div (.Number 0)) (some "e") none none)
      nullProgram Env.new = .err "Division by zero" :=
  ⟨claim_C1_try_catch.2.2.1 2 (.Binary (.Number 1) .Div (.Number 0)) "e" (.Var "e")
      nullProgram Env.new "Division by zero" rfl,
    claim_C1_try_catch.2.2.2.2 2 (.Binary (.Number 1) .Div (.Number 0)) (some "e")
      nullProgram Env.new "Division by zero" rfl⟩

/-- C6: list and map literals evaluate each element (or map value) and
convert it to JSON, with numbers and booleans becoming the corresponding
JSON scalars and a string first attempted as JSON text — embedded parsed
on success, embedded as a JSON string on failure — so `["2", "x"]`
evaluates to the JSON text `[2,"x"]`. -/
theorem claim_C6_json_literals :
    (∀ n : ℚ, value_to_json (.Number n) = .num (.float n)) ∧
    (∀ b : Bool, value_to_json (.Bool b) = .bool b) ∧
    (∀ s : String, value_to_json (.Str s) = (jsonParse s).getD (.str s)) ∧
    value_to_json (.Str "2") = .num (.int 2) ∧
    value_to_json (.Str "x") = .str "x" ∧
    (∀ fuel items p env vals,
      collectVals (items.map fun it => eval_expr fuel it p env) = .ok vals →
      eval_expr (fuel + 1) (.List items) p env =
        .ok (.Str (Json.serialize (.arr (vals.map value_to_json))))) ∧
    (∀ fuel pairs p env vals,
      collectVals (pairs.map fun kv => eval_expr fuel kv.2 p env) = .ok vals →
      eval_expr (fuel + 1) (.Map pairs) p env =
        .ok (.Str (Json.serialize (.obj
          (((pairs.map Prod.fst).zip (vals.map value_to_json)).foldl
            (fun acc kv => mapInsert acc kv.1 kv.2) []))))) ∧
    eval_source 10 nullProgram [] "[\"2\", \"x\"]" = some (.ok "[2,\"x\"]") := by
  refine ⟨fun n => rfl, fun b => rfl, fun s => rfl, rfl, rfl,
    fun fuel items p env vals h => ?_, fun fuel pairs p env vals h => ?_, rfl⟩
  · simp only [eval_expr, h]
  · simp only [eval_expr, h]

/-- Witness for C6 at a concrete input: the list literal `["2", "x"]`
serializes its converted elements, unwrapping the numeric-looking string. -/
theorem claim_C6_json_literals_witness :
    eval_expr 2 (.List [.Str "2", .Str "x"]) nullProgram Env.new =
      .ok (.Str (Json.serialize
        (.arr ([ValueRuntime.Str "2", ValueRuntime.Str "x"].map value_to_json)))) :=
  claim_C6_json_literals.2.2.2.2.2.1 1 [.Str "2", .Str "x"] nullProgram Env.new
    [.Str "2", .Str "x"] rfl

/-- One bounded-loop run returns the (pure) body result when there is at
least one step. -/
theorem loopSteps_ok_const (f : Unit → EvalRes) (v : ValueRuntime) :
    ∀ (steps : Nat) (last : ValueRuntime), f () = .ok v →
      loopSteps f last (steps + 1) = .ok v := by
  intro steps
  induction steps with
  | zero => intro last h; simp [loopSteps, h]
  | succ s ih => intro last h; simpa [loopSteps, h] using ih v h

/-- C7: a Repeat expression evaluates its count exactly once, coerces it
to a number and floors it to a step count; a negative count and a step
count above 10,000 are errors; otherwise the body is re-evaluated once per
step and the result is the last iteration's value, or the empty string for
zero steps. -/
theorem claim_C7_repeat :
    (∀ fuel c b p env,
      eval_expr (fuel + 1) (.Repeat c b) p env =
        match eval_expr fuel c p env with
        | .ok cv =>
          match as_number cv with
          | .error m => .err m
          | .ok n =>
            if n < 0 then .err "repeat N times: N must be non-negative"
            else if n.floor.toNat > 10000 then
              .err "repeat N times: N is too large (max 10_000)"
            else loopSteps (fun _ => eval_expr fuel b p env) (.Str "") n.floor.toNat
        | other => other) ∧
    (∀ (f : Unit → EvalRes) (last : ValueRuntime), loopSteps f last 0 = .ok last) ∧
    (∀ (f : Unit → EvalRes) v last steps, f () = .ok v →
      loopSteps f last (steps + 1) = .ok v) ∧
    (∀ (f : Unit → EvalRes) msg last steps, f () = .err msg →
      loopSteps f last (steps + 1) = .err msg) ∧
    eval_source 10 nullProgram [] "repeat 0 times: 5" = some (.ok "") ∧
    eval_source 10 nullProgram [] "repeat 3 times: \"x\"" = some (.ok "x") ∧
    eval_source 10 nullProgram [] "repeat 10001 times: 1" =
      some (.error "repeat N times: N is too large (max 10_000)") ∧
    eval_source 10 nullProgram [] "repeat 0 - 1 times: 1" =
      some (.error "repeat N times: N must be non-negative") := by
  refine ⟨fun fuel c b p env => rfl, fun f last => rfl,
    fun f v last steps h => loopSteps_ok_const f v steps last h,
    fun f msg last steps h => ?_, rfl, rfl, rfl, rfl⟩
  simp [loopSteps, h]

/-- Witness for C7 at a concrete input: three iterations of a body that
evaluates to `"x"` give `"x"`. -/
theorem claim_C7_repeat_witness :
    loopSteps (fun _ => EvalRes.ok (.Str "x")) (.Str "") 3 = .ok (.Str "x") :=
  claim_C7_repeat.2.2.1 (fun _ => EvalRes.ok (.Str "x")) (.Str "x") (.Str "") 2 rfl

/-- Association-list lookup distributes over append. -/
theorem lookup_append (x : String) (l₁ l₂ : List (String × ValueRuntime)) :
    (l₁ ++ l₂).lookup x = ((l₁.lookup x).orElse fun _ => l₂.lookup x) := by
  induction l₁ with
  | nil => rfl
  | cons p l ih =>
    cases h : x == p.1 <;> simp [List.lookup, h, ih, Option.orElse]

/-- Looking a name up after folding a binding list into an environment:
the most recently inserted binding of the name wins, and absent names fall
back to the original environment. -/
theorem env_fold_get (l : List (String × ValueRuntime)) (env : Env) (x : String) :
    (l.foldl (fun e pv => e.set pv.1 pv.2) env).get x =
      ((l.reverse.lookup x).orElse fun _ => env.get x) := by
  induction l generalizing env with
  | nil => rfl
  | cons p l ih =>
    rw [List.foldl_cons, ih, List.reverse_cons, lookup_append]
    cases hl : l.reverse.lookup x with
    | some v => simp [Option.orElse]
    | none =>
      cases h : x == p.1 <;>
        simp [Option.orElse, Env.get, Env.set, List.lookup, h]

/-- C2: calling a user-defined function or method with the wrong number of
argument values is an arity error; otherwise the body runs in a full copy
of the caller's entire environment with the formal parameters bound on
top, overwriting same-named caller variables — so a zero-parameter
function whose body reads a free variable `x` returns whatever the call
site's environment binds `x` to. -/
theorem claim_C2_call_env :
    (∀ (k : Env → EvalRes) func arg_vals parent_env,
      arg_vals.length ≠ func.params.length →
      eval_function k func arg_vals parent_env =
        .err s!"Function '{func.name}' expected {func.params.length} arguments, got {arg_vals.length}") ∧
    (∀ (k : Env → EvalRes) func arg_vals parent_env,
      arg_vals.length = func.params.length →
      eval_function k func arg_vals parent_env =
        k (bindAll (Env.with_parent parent_env) func.params arg_vals)) ∧
    (∀ parent_env : Env, Env.with_parent parent_env = parent_env) ∧
    (∀ env params vals (x : String),
      (bindAll env params vals).get x =
        (((params.zip vals).reverse.lookup x).orElse fun _ => env.get x)) ∧
    (∀ fuel env v, env.get "x" = some v →
      eval_expr (fuel + 2) (.Call "f" []) freeVarProgram env = .ok v) := by
  refine ⟨fun k func arg_vals parent_env h => by simp [eval_function, h],
    fun k func arg_vals parent_env h => by simp [eval_function, h],
    fun parent_env => rfl,
    fun env params vals x => env_fold_get (params.zip vals) env x,
    fun fuel env v h => ?_⟩
  simp [eval_expr, eval_function, bindAll, Env.with_parent, collectVals,
    freeVarProgram, List.lookup, h]

/-- Witness for C2 at concrete inputs: a one-parameter function called
with no arguments is an arity error; duplicate parameters overwrite
left-to-right; and the zero-parameter free-variable function returns the
caller's binding of `x`. -/
theorem claim_C2_call_env_witness :
    eval_function (fun _ => EvalRes.fuelOut) ⟨"f", ["a"], .Number 1⟩ [] Env.new =
      .err "Function 'f' expected 1 arguments, got 0" ∧
    (bindAll Env.new ["x", "x"] [.Number 1, .Number 2]).get "x" =
      ((([("x", ValueRuntime.Number 1), ("x", ValueRuntime.Number 2)].reverse).lookup "x").orElse
        fun _ => Env.new.get "x") ∧
    eval_expr 3 (.Call "f" []) freeVarProgram (Env.new.set "x" (.Number 7)) =
      .ok (.Number 7) :=
  ⟨claim_C2_call_env.1 (fun _ => EvalRes.fuelOut) ⟨"f", ["a"], .Number 1⟩ [] Env.new
      (by decide),
    claim_C2_call_env.2.2.2.1 Env.new ["x", "x"] [.Number 1, .Number 2] "x",
    claim_C2_call_env.2.2.2.2 1 (Env.new.set "x" (.Number 7)) (.Number 7) rfl⟩

/-- Scanning the endpoint body forward skips every blank or comment line. -/
theorem endpointScan_skip (method : Method) (path : String) (line_no : Nat) :
    ∀ (pre rest : List String) (j : Nat),
      (∀ l ∈ pre, blankOrCommentLine l = true) →
      endpointScan method path line_no (pre ++ rest) j =
        endpointScan method path line_no rest (j + pre.length) := by
  intro pre
  induction pre with
  | nil => intro rest j _; rfl
  | cons l pre ih =>
    intro rest j h
    have hl : (strIsEmpty (strTrim l) || strStartsWith (strTrim l) "#") = true :=
      h l (by simp)
    have step : endpointScan method path line_no ((l :: pre) ++ rest) j =
        endpointScan method path line_no (pre ++ rest) (j + 1) := by
      simp [List.cons_append, endpointScan, hl]
    rw [step, ih rest (j + 1) (fun l' hl' => h l' (by simp [hl']))]
    have : j + 1 + pre.length = j + (pre.length + 1) := by omega
    rw [this]
    rfl

/-- Scanning the endpoint body forward over nothing but blank and comment
lines fails with the header line's `missing body expression` error. -/
theorem endpointScan_exhaust (method : Method) (path : String) (line_no : Nat) :
    ∀ (tail : List String) (j : Nat),
      (∀ l ∈ tail, blankOrCommentLine l = true) →
      endpointScan method path line_no tail j =
        .error s!"Line {line_no}: endpoint declaration missing body expression after ':'" := by
  intro tail
  induction tail with
  | nil => intro j _; rfl
  | cons l tail ih =>
    intro j h
    have hl : (strIsEmpty (strTrim l) || strStartsWith (strTrim l) "#") = true :=
      h l (by simp)
    simp only [endpointScan, hl]
    exact ih (j + 1) (fun l' hl' => h l' (by simp [hl']))

/-- C8: an endpoint declaration with non-empty body text after the colon
parses it immediately; with empty text, the parser scans forward and
consumes exactly one next non-blank, non-comment line as the body; and
when no such line exists before the end of the file, parsing fails with a
line-numbered error mentioning `missing body expression`. -/
theorem claim_C8_endpoint_body :
    parse_endpoint ["endpoint GET \"/x\": \"hi\"", "next"] 0 =
      .ok (⟨.Get, "/x", .TextExpr (.Str "hi"), none⟩, 1) ∧
    (∀ tail, (∀ l ∈ tail, blankOrCommentLine l = true) →
      parse_endpoint ("endpoint GET \"/x\":" :: tail) 0 =
        .error "Line 1: endpoint declaration missing body expression after ':'") ∧
    (∃ pre post,
      "Line 1: endpoint declaration missing body expression after ':'" =
        pre ++ "missing body expression" ++ post) ∧
    (∀ pre rest, (∀ l ∈ pre, blankOrCommentLine l = true) →
      parse_endpoint ("endpoint GET \"/x\":" :: (pre ++ "\"hi\"" :: rest)) 0 =
        .ok (⟨.Get, "/x", .TextExpr (.Str "hi"), none⟩, pre.length + 2)) := by
  refine ⟨rfl, fun tail h => ?_, ⟨"Line 1: endpoint declaration ", " after ':'", rfl⟩,
    fun pre rest h => ?_⟩
  · have head : parse_endpoint ("endpoint GET \"/x\":" :: tail) 0 =
        endpointScan .Get "/x" 1 tail 1 := rfl
    rw [head, endpointScan_exhaust .Get "/x" 1 tail 1 h]
    rfl
  · have head : parse_endpoint ("endpoint GET \"/x\":" :: (pre ++ "\"hi\"" :: rest)) 0 =
        endpointScan .Get "/x" 1 (pre ++ "\"hi\"" :: rest) 1 := rfl
    have hit : ∀ j, endpointScan .Get "/x" 1 ("\"hi\"" :: rest) j =
        .ok (⟨.Get, "/x", .TextExpr (.Str "hi"), none⟩, j + 1) := fun j => rfl
    rw [head, endpointScan_skip .Get "/x" 1 pre ("\"hi\"" :: rest) 1 h, hit]
    have : 1 + pre.length + 1 = pre.length + 2 := by omega
    rw [this]

/-- Witness for C8 at concrete inputs: a header followed only by a blank
and a comment line fails with the missing-body error, and a body line
after one blank line is consumed as exactly one line. -/
theorem claim_C8_endpoint_body_witness :
    parse_endpoint ["endpoint GET \"/x\":", "", "# c"] 0 =
      .error "Line 1: endpoint declaration missing body expression after ':'" ∧
    parse_endpoint ["endpoint GET \"/x\":", "", "\"hi\"", "z"] 0 =
      .ok (⟨.Get, "/x", .TextExpr (.Str "hi"), none⟩, 3) :=
  ⟨claim_C8_endpoint_body.2.1 ["", "# c"] (by decide),
    claim_C8_endpoint_body.2.2.2 [""] ["z"] (by decide)⟩

/-- The failure list of the assertion loop is empty exactly when every
assertion evaluates to the trimmed string `true`. -/
theorem runAssertions_nil_iff (fuel : Nat) (p : Program) (tname : String) :
    ∀ (es : List Expr) (idx : Nat) (fs : List String),
      runAssertions fuel p tname idx es = some fs →
      (fs = [] ↔ ∀ e ∈ es, eval_assertion fuel e p [] = some (.ok true)) := by
  intro es
  induction es with
  | nil =>
    intro idx fs h
    simp only [runAssertions, Option.some.injEq] at h
    subst h
    simp
  | cons e rest ih =>
    intro idx fs h
    cases ha : eval_assertion fuel e p [] with
    | none => rw [runAssertions, ha] at h; cases h
    | some r =>
      cases r with
      | ok bv =>
        cases bv with
        | true =>
          rw [runAssertions, ha] at h
          have := ih (idx + 1) fs h
          simp [ha, this]
        | false =>
          rw [runAssertions, ha] at h
          cases hr : runAssertions fuel p tname (idx + 1) rest with
          | none => rw [hr] at h; cases h
          | some fs' =>
            rw [hr] at h
            simp only [Option.map_some', Option.some.injEq] at h
            subst h
            constructor
            · intro hfs; cases hfs
            · intro hall
              have h2 := hall e (by simp)
              rw [ha] at h2
              simp at h2
      | error m =>
        rw [runAssertions, ha] at h
        cases hr : runAssertions fuel p tname (idx + 1) rest with
        | none => rw [hr] at h; cases h
        | some fs' =>
          rw [hr] at h
          simp only [Option.map_some', Option.some.injEq] at h
          subst h
          constructor
          · intro hfs; cases hfs
          · intro hall
            have h2 := hall e (by simp)
            rw [ha] at h2
            simp at h2

/-- C9: every test assertion is evaluated with an empty binding map and
passes exactly when the evaluated result string, after trimming, equals
`true`; any other result and any evaluation error is a failure attributed
to the assertion's 1-based index and the test's name. -/
theorem claim_C9_test_assertions :
    (∀ fuel e p s, eval_body_expr fuel e p [] = some (.ok s) →
      eval_assertion fuel e p [] = some (.ok (strTrim s == "true"))) ∧
    (∀ fuel e p m, eval_body_expr fuel e p [] = some (.error m) →
      eval_assertion fuel e p [] = some (.error m)) ∧
    (∀ fuel p t, run_single_test fuel p t =
      (runAssertions fuel p t.name 0 t.assertions).map
        (fun failures => ⟨t.name, failures.isEmpty, failures⟩)) ∧
    (∀ fuel p tname idx e rest, eval_assertion fuel e p [] = some (.ok true) →
      runAssertions fuel p tname idx (e :: rest) =
        runAssertions fuel p tname (idx + 1) rest) ∧
    (∀ fuel p tname idx e rest, eval_assertion fuel e p [] = some (.ok false) →
      runAssertions fuel p tname idx (e :: rest) =
        (runAssertions fuel p tname (idx + 1) rest).map
          (fun fs => s!"assertion {idx + 1} in test '{tname}' evaluated to a non-true value" :: fs)) ∧
    (∀ fuel p tname idx e rest m, eval_assertion fuel e p [] = some (.error m) →
      runAssertions fuel p tname idx (e :: rest) =
        (runAssertions fuel p tname (idx + 1) rest).map
          (fun fs => s!"assertion {idx + 1} in test '{tname}' failed with error: {m}" :: fs)) ∧
    (∀ fuel p t r, run_single_test fuel p t = some r →
      (r.passed = true ↔ ∀ e ∈ t.assertions, eval_assertion fuel e p [] = some (.ok true))) ∧
    run_single_test 10 nullProgram ⟨"t", [.Binary (.Number 1) .Eq (.Number 1), .Bool false]⟩ =
      some ⟨"t", false, ["assertion 2 in test 't' evaluated to a non-true value"]⟩ := by
  refine ⟨fun fuel e p s h => by simp [eval_assertion, h],
    fun fuel e p m h => by simp [eval_assertion, h],
    fun fuel p t => rfl,
    fun fuel p tname idx e rest h => by rw [runAssertions, h],
    fun fuel p tname idx e rest h => by rw [runAssertions, h],
    fun fuel p tname idx e rest m h => by rw [runAssertions, h],
    fun fuel p t r h => ?_, rfl⟩
  cases hr : runAssertions fuel p t.name 0 t.assertions with
  | none => rw [run_single_test, hr] at h; cases h
  | some fs =>
    rw [run_single_test, hr] at h
    simp only [Option.map_some', Option.some.injEq] at h
    subst h
    have := runAssertions_nil_iff fuel p t.name t.assertions 0 fs hr
    simpa [List.isEmpty_iff] using this

/-- Witness for C9 at concrete inputs: an assertion evaluating to the
string `true` passes, and a false assertion produces the indexed failure
message. -/
theorem claim_C9_test_assertions_witness :
    eval_assertion 10 (.Bool true) nullProgram [] =
      some (.ok (strTrim "true" == "true")) ∧
    runAssertions 10 nullProgram "t" 1 [.Bool false] =
      (runAssertions 10 nullProgram "t" 2 []).map
        (fun fs => "assertion 2 in test 't' evaluated to a non-true value" :: fs) :=
  ⟨claim_C9_test_assertions.1 10 (.Bool true) nullProgram "true" rfl,
    claim_C9_test_assertions.2.2.2.2.1 10 nullProgram "t" 1 (.Bool false) [] rfl⟩

end Shrimpl
